import Mathlib

/-!
# connman `src/storage.c`: directory mirror, identifier validation, settings persistence

A shallow embedding of `src/connman/src/storage.c`.

* C strings are `String`; prefix and equality tests are done on the character list.
* The file system is an explicit value `Fs`: a table from path strings (exactly the strings
  the code builds with `g_strdup_printf`) to inodes.  System calls are functions on `Fs`.
* The result of `opendir(STORAGEDIR)` followed by the `readdir` loop is an explicit input
  `Option (List dirent)` (`none`: `opendir` returned `NULL`).
* A `struct storage_subdir *` is a natural number (the address handed out by `g_new0`);
  the pointed-to struct is stored next to its address in the list cell.
* The notification registry lives in `src/inotify.c`, outside `storage.c`; it is explicit
  state (`World.inotify`) and its two entry points are modelled from the specification.
* Build-time constants and the external D-Bus / GLib key-file routines are fields of `Env`;
  so are the refusals of `unlink` and `rmdir` that a path table cannot show (permissions,
  read-only or busy file systems).
-/

namespace Storage

/-! ## External constants and library routines -/

/-- A key-file document: ordered sections, each an ordered list of key/value pairs. -/
abbrev GKeyFile := List (String × List (String × String))

/-- What `stat` reports about a path: a regular file (with its bytes), a directory, or
something else (fifo, socket, device). -/
inductive Inode where
  | reg (content : String)
  | dir
  | other
  deriving DecidableEq

/-- The file system: a table from path strings to inodes (first match wins). -/
abbrev Fs := List (String × Inode)

/-- Build-time constants, external library routines used by `storage.c`, and the part of
the operating system that the path table does not describe. -/
structure Env where
  /-- The macro `STORAGEDIR`. -/
  STORAGEDIR : String
  /-- The macro `CONNMAN_PATH`. -/
  CONNMAN_PATH : String
  /-- The libdbus predicate `dbus_validate_path(path, NULL) == TRUE`. -/
  dbus_validate_path : String → Bool
  /-- The GLib key-file parser applied to the bytes of a file (`none`: parse error). -/
  g_key_file_load_from_data : String → Option GKeyFile
  /-- The GLib key-file serialiser `g_key_file_to_data`. -/
  g_key_file_to_data : GKeyFile → String
  /-- Whether the kernel refuses unlink(path) in this file system for a reason the path table
  does not show (EACCES, EPERM, EROFS, EBUSY): the errno, or `none` when it does not. -/
  unlink_refused : Fs → String → Option Int
  /-- Whether the kernel refuses rmdir(path) in this file system for a reason the path table
  does not show (EACCES, EPERM, EROFS, EBUSY): the errno, or `none` when it does not. -/
  rmdir_refused : Fs → String → Option Int

/-- The macro `SETTINGS`. -/
def SETTINGS : String := "settings"

/-! Values of errno used by the code or produced by the modelled system calls. -/

/-- The errno value ENOENT. -/
def ENOENT : Int := 2
/-- The errno value EIO. -/
def EIO : Int := 5
/-- The errno value ENOMEM. -/
def ENOMEM : Int := 12
/-- The errno value EEXIST. -/
def EEXIST : Int := 17
/-- The errno value ENOTDIR. -/
def ENOTDIR : Int := 20
/-- The errno value EISDIR. -/
def EISDIR : Int := 21
/-- The errno value EINVAL. -/
def EINVAL : Int := 22
/-- The errno value EROFS. -/
def EROFS : Int := 30
/-- The errno value ENOTEMPTY. -/
def ENOTEMPTY : Int := 39

/-! ## Identifier validator (storage.c:63-91) -/

/-- The test strncmp(a, b, n) == 0 on NUL-terminated strings. -/
def strncmp_eq (a b : String) (n : Nat) : Bool :=
  a.data.take n == b.data.take n

/-- The call g_strcmp0(a, b) on non-NULL strings: zero exactly when the strings are equal. -/
def g_strcmp0 (a b : String) : Int :=
  if a = b then 0 else if a < b then -1 else 1

/-- Source storage.c:63, service_id_is_valid. -/
def service_id_is_valid (env : Env) (id : String) : Bool :=
  let check := env.CONNMAN_PATH ++ "/service/" ++ id
  let valid := env.dbus_validate_path check == true
  valid

/-- Source storage.c:73, is_service_dir_name. -/
def is_service_dir_name (env : Env) (name : String) : Bool :=
  if strncmp_eq name "provider_" 9 || !service_id_is_valid env name then
    false
  else
    true

/-- Source storage.c:83, is_provider_dir_name. -/
def is_provider_dir_name (name : String) : Bool :=
  if strncmp_eq name "provider_" 9 then
    true
  else
    false

/-! ## File system model -/

/-- The system call stat(path, &buf): `none` when the call fails, otherwise the inode. -/
def stat : Fs → String → Option Inode
  | [], _ => none
  | (q, n) :: rest, p => if q = p then some n else stat rest p

/-- The macro S_ISREG(st.st_mode). -/
def S_ISREG : Inode → Bool
  | .reg _ => true
  | _ => false

/-- The macro S_ISDIR(st.st_mode). -/
def S_ISDIR : Inode → Bool
  | .dir => true
  | _ => false

/-- The flags of `g_file_test` that the code uses. -/
inductive GFileTest where
  | G_FILE_TEST_EXISTS
  | G_FILE_TEST_IS_REGULAR
  | G_FILE_TEST_IS_DIR
  deriving DecidableEq

/-- The GLib call g_file_test(path, test). -/
def g_file_test (fs : Fs) (path : String) (test : GFileTest) : Bool :=
  match stat fs path with
  | none => false
  | some n =>
    match test with
    | .G_FILE_TEST_EXISTS => true
    | .G_FILE_TEST_IS_REGULAR => S_ISREG n
    | .G_FILE_TEST_IS_DIR => S_ISDIR n

/-- Remove every table row for `path`. -/
def fs_erase (fs : Fs) (path : String) : Fs :=
  fs.filter (fun e => !(e.1 == path))

/-- Whether some path of the table lies below directory `path`. -/
def fs_has_child (fs : Fs) (path : String) : Bool :=
  fs.any (fun e => (path ++ "/").data.isPrefixOf e.1.data)

/-- The directory part of a path: everything before the last `/`. -/
def path_dirname (path : String) : String :=
  String.mk ((path.data.reverse.dropWhile (fun c => !(c == '/'))).drop 1).reverse

/-- The system call unlink(path): removes a non-directory unless the kernel refuses;
otherwise fails with an errno and leaves the file system as it is. -/
def unlink (env : Env) (fs : Fs) (path : String) : Except Int Fs :=
  match stat fs path with
  | none => .error ENOENT
  | some .dir => .error EISDIR
  | some _ =>
    match env.unlink_refused fs path with
    | some errno => .error errno
    | none => .ok (fs_erase fs path)

/-- The system call rmdir(path): removes a directory that has no entry below it unless the
kernel refuses; otherwise fails with an errno and leaves the file system as it is. -/
def rmdir (env : Env) (fs : Fs) (path : String) : Except Int Fs :=
  match stat fs path with
  | none => .error ENOENT
  | some .dir =>
    match env.rmdir_refused fs path with
    | some errno => .error errno
    | none => if fs_has_child fs path then .error ENOTEMPTY else .ok (fs_erase fs path)
  | some _ => .error ENOTDIR

/-- The system call mkdir(path, MODE): adds a directory below an existing directory; otherwise
fails with an errno.  Permission bits are not modelled. -/
def mkdir (fs : Fs) (path : String) : Except Int Fs :=
  match stat fs path with
  | some _ => .error EEXIST
  | none =>
    match stat fs (path_dirname path) with
    | none => .error ENOENT
    | some .dir => .ok ((path, Inode.dir) :: fs)
    | some _ => .error ENOTDIR

/-- The file system after a call whose return value the caller ignores. -/
def after (fs : Fs) (r : Except Int Fs) : Fs :=
  match r with
  | .ok fs1 => fs1
  | .error _ => fs

/-- The GLib call g_file_set_contents(path, data, length, &error): replaces the file atomically; fails
when the parent is not a directory or the target is a directory. -/
def g_file_set_contents (fs : Fs) (path : String) (data : String) : Bool × Fs :=
  match stat fs (path_dirname path), stat fs path with
  | some .dir, some .dir => (false, fs)
  | some .dir, _ => (true, (path, Inode.reg data) :: fs_erase fs path)
  | _, _ => (false, fs)

/-- The GLib call g_key_file_load_from_file(keyfile, path, 0, &error): the parsed document, or `none`
when the file cannot be read or parsed. -/
def g_key_file_load_from_file (env : Env) (fs : Fs) (path : String) : Option GKeyFile :=
  match stat fs path with
  | some (.reg content) => env.g_key_file_load_from_data content
  | _ => none

/-- The GLib call g_key_file_new(): a document with no section and no key. -/
def g_key_file_new : GKeyFile := []

/-! ## Directory mirror: data (storage.c:42-55) -/

/-- A struct storage_subdir, stored together with the address `g_new0` returned for it. -/
structure storage_subdir where
  /-- The address of the allocation; two records are the same record iff they have the same
  address. -/
  addr : Nat
  name : String
  has_settings : Bool
  deriving DecidableEq

/-- The struct storage_dir_context; `subdirs` is the GList, head first. -/
structure storage_dir_context where
  initialized : Bool
  subdirs : List storage_subdir
  deriving DecidableEq

/-- The two callbacks that storage.c hands to the notification registry. -/
inductive inotify_event_cb where
  | storage_inotify_cb
  | storage_inotify_subdir_cb
  deriving DecidableEq

/-- The only cleanup function that storage.c hands to the notification registry. -/
inductive GDestroyNotify where
  | storage_subdir_free
  deriving DecidableEq

/-- One registration held by the notification registry: the four arguments of
connman_inotify_register.  A NULL pointer is `none`. -/
structure Registration where
  path : String
  callback : inotify_event_cb
  user_data : Option Nat
  free_func : Option GDestroyNotify
  deriving DecidableEq

/-- The process state that storage.c reads and writes: the static `storage`, the
registrations held by the notification registry, and the next address `g_new0` hands out. -/
structure World where
  storage : storage_dir_context
  inotify : List Registration
  next_addr : Nat
  deriving DecidableEq

/-- The state at process start (storage.c:52): not initialized, no record, no registration. -/
def World.start : World :=
  { storage := { initialized := false, subdirs := [] }, inotify := [], next_addr := 1 }

/-- A struct dirent d_type value. -/
inductive d_type_t where
  | DT_UNKNOWN | DT_FIFO | DT_CHR | DT_DIR | DT_BLK | DT_REG | DT_LNK | DT_SOCK | DT_WHT
  deriving DecidableEq

/-- The fields of struct dirent that the code reads. -/
structure dirent where
  d_name : String
  d_type : d_type_t
  deriving DecidableEq

/-- The fields of struct inotify_event that the code reads. -/
structure inotify_event where
  mask : Nat
  name : String
  deriving DecidableEq

/-- The inotify mask bit IN_MOVED_FROM. -/
def IN_MOVED_FROM : Nat := 0x40
/-- The inotify mask bit IN_MOVED_TO. -/
def IN_MOVED_TO : Nat := 0x80
/-- The inotify mask bit IN_CREATE. -/
def IN_CREATE : Nat := 0x100
/-- The inotify mask bit IN_DELETE. -/
def IN_DELETE : Nat := 0x200
/-- The inotify mask bit IN_DELETE_SELF. -/
def IN_DELETE_SELF : Nat := 0x400
/-- The inotify mask bit IN_ISDIR. -/
def IN_ISDIR : Nat := 0x40000000

/-- The C truth value of `mask & flag`. -/
def mask_has (mask flag : Nat) : Bool :=
  (mask &&& flag) != 0

/-! ## Directory mirror: operations (storage.c:93-271) -/

/-- Source storage.c:93, storage_subdir_cmp. -/
def storage_subdir_cmp (d1 d2 : storage_subdir) : Int :=
  g_strcmp0 d1.name d2.name

/-- The GLib call g_list_remove(list, data): drops the first cell holding the pointer. -/
def g_list_remove (list : List storage_subdir) (data : Nat) : List storage_subdir :=
  list.eraseP (fun r => r.addr == data)

/-- The GLib call g_list_find_custom(list, key, storage_subdir_cmp): the first cell whose
record compares equal to the key. -/
def g_list_find_custom (list : List storage_subdir) (key : storage_subdir) :
    Option storage_subdir :=
  list.find? (fun r => storage_subdir_cmp r key == 0)

/-- Read the record a pointer points to; `none` for a pointer to no live record. -/
def deref (w : World) (p : Nat) : Option storage_subdir :=
  w.storage.subdirs.find? (fun r => r.addr == p)

/-- The assignment `subdir->has_settings = v` through a pointer. -/
def set_has_settings (w : World) (p : Nat) (v : Bool) : World :=
  { w with storage := { w.storage with
      subdirs := w.storage.subdirs.map
        (fun r => if r.addr == p then { r with has_settings := v } else r) } }

/-- Source storage.c:103, storage_subdir_free. -/
def storage_subdir_free (w : World) (data : Nat) : World :=
  { w with storage := { w.storage with subdirs := g_list_remove w.storage.subdirs data } }

/-- Modelled from the spec: connman_inotify_register of src/inotify.c, of which only the
callers are available.  "Register(path, callback, context, onUnregisterCleanup)" adds a
registration. -/
def connman_inotify_register (w : World) (path : String) (callback : inotify_event_cb)
    (user_data : Option Nat) (free_func : Option GDestroyNotify) : World :=
  { w with inotify :=
      { path := path, callback := callback, user_data := user_data, free_func := free_func }
        :: w.inotify }

/-- Whether a registration is the one named by (path, callback, context). -/
def Registration.is (r : Registration) (path : String) (callback : inotify_event_cb)
    (user_data : Option Nat) : Bool :=
  r.path == path && r.callback == callback && r.user_data == user_data

/-- Modelled from the spec: connman_inotify_unregister of src/inotify.c, of which only the
callers are available.  "Unregister(path, callback, context)" removes the registration and
runs its cleanup on the context; it does nothing when there is no such registration. -/
def connman_inotify_unregister (w : World) (path : String) (callback : inotify_event_cb)
    (user_data : Option Nat) : World :=
  match w.inotify.find? (fun r => r.is path callback user_data) with
  | none => w
  | some r =>
    let w1 := { w with inotify := w.inotify.erase r }
    match r.free_func, r.user_data with
    | some .storage_subdir_free, some p => storage_subdir_free w1 p
    | _, _ => w1

/-- Source storage.c:112, storage_subdir_unregister. -/
def storage_subdir_unregister (env : Env) (w : World) (subdir : storage_subdir) : World :=
  let str := env.STORAGEDIR ++ "/" ++ subdir.name
  connman_inotify_unregister w str .storage_inotify_subdir_cb (some subdir.addr)

/-- Source storage.c:123, storage_subdir_append. -/
def storage_subdir_append (env : Env) (fs : Fs) (w : World) (name : String) : World :=
  let subdir : storage_subdir := { addr := w.next_addr, name := name, has_settings := false }
  let str := env.STORAGEDIR ++ "/" ++ subdir.name ++ "/" ++ SETTINGS
  let ret := stat fs str
  let subdir := if ret.isSome then { subdir with has_settings := true } else subdir
  let w := { w with
    next_addr := w.next_addr + 1
    storage := { w.storage with subdirs := subdir :: w.storage.subdirs } }
  let str := env.STORAGEDIR ++ "/" ++ subdir.name
  connman_inotify_register w str .storage_inotify_subdir_cb (some subdir.addr)
    (some .storage_subdir_free)

/-- Source storage.c:149, storage_inotify_subdir_cb; `user_data` is the record pointer the
registration was made with. -/
def storage_inotify_subdir_cb (env : Env) (fs : Fs) (w : World) (event : inotify_event)
    (user_data : Nat) : World :=
  match deref w user_data with
  | none => w
  | some subdir =>
    if mask_has event.mask IN_ISDIR then
      w
    else if mask_has event.mask IN_DELETE || mask_has event.mask IN_MOVED_FROM then
      if g_strcmp0 event.name SETTINGS == 0 then
        set_has_settings w user_data false
      else
        w
    else if mask_has event.mask IN_CREATE || mask_has event.mask IN_MOVED_TO then
      if g_strcmp0 event.name SETTINGS == 0 then
        let pathname := env.STORAGEDIR ++ "/" ++ subdir.name ++ "/" ++ event.name
        match stat fs pathname with
        | some st => if S_ISREG st then set_has_settings w user_data true else w
        | none => w
      else
        w
    else
      w

/-- The loop of storage.c:264: while the list is not empty, unregister the head record.
The loop has no exit of its own, so the embedding counts iterations: `none` when the
list is still not empty after `fuel` iterations. -/
def storage_dir_cleanup_loop (env : Env) : Nat → World → Option World
  | 0, w => if w.storage.subdirs.isEmpty then some w else none
  | fuel + 1, w =>
    match w.storage.subdirs with
    | [] => some w
    | subdir :: _ => storage_dir_cleanup_loop env fuel (storage_subdir_unregister env w subdir)

/-- Source storage.c:255, storage_dir_cleanup. -/
def storage_dir_cleanup (env : Env) (fuel : Nat) (w : World) : Option World :=
  if !w.storage.initialized then
    some w
  else
    let w := connman_inotify_unregister w env.STORAGEDIR .storage_inotify_cb none
    match storage_dir_cleanup_loop env fuel w with
    | none => none
    | some w => some { w with storage := { initialized := false, subdirs := [] } }

/-- Source storage.c:184, storage_inotify_cb. -/
def storage_inotify_cb (env : Env) (fs : Fs) (fuel : Nat) (w : World)
    (event : inotify_event) : Option World :=
  if mask_has event.mask IN_DELETE_SELF then
    storage_dir_cleanup env fuel w
  else if !mask_has event.mask IN_ISDIR then
    some w
  else if mask_has event.mask IN_DELETE || mask_has event.mask IN_MOVED_FROM then
    let key : storage_subdir := { addr := 0, name := event.name, has_settings := false }
    match g_list_find_custom w.storage.subdirs key with
    | some pos => some (storage_subdir_unregister env w pos)
    | none => some w
  else if mask_has event.mask IN_CREATE || mask_has event.mask IN_MOVED_TO then
    some (storage_subdir_append env fs w event.name)
  else
    some w

/-- The readdir loop of storage.c:233-244 over the entries the directory stream delivers. -/
def storage_dir_scan (env : Env) (fs : Fs) : World → List dirent → World
  | w, [] => w
  | w, d :: rest =>
    if d.d_name = "." || d.d_name = ".." then
      storage_dir_scan env fs w rest
    else
      match d.d_type with
      | .DT_DIR | .DT_UNKNOWN =>
        storage_dir_scan env fs (storage_subdir_append env fs w d.d_name) rest
      | _ => storage_dir_scan env fs w rest

/-- Source storage.c:219, storage_dir_init; `dir` is what opendir(STORAGEDIR) and the readdir
calls deliver (`none`: opendir returned NULL). -/
def storage_dir_init (env : Env) (dir : Option (List dirent)) (fs : Fs) (w : World) : World :=
  if w.storage.initialized then
    w
  else
    match dir with
    | none => w
    | some entries =>
      let w := storage_dir_scan env fs w entries
      let w := connman_inotify_register w env.STORAGEDIR .storage_inotify_cb none none
      { w with storage := { w.storage with initialized := true } }

/-- The counting loop of storage.c:437 and :660. -/
def count_names (pred : String → Bool) : List storage_subdir → Nat → Nat
  | [], sum => sum
  | subdir :: l, sum =>
    if pred subdir.name && subdir.has_settings then count_names pred l (sum + 1)
    else count_names pred l sum

/-- The filling loop of storage.c:445 and :668, writing `result[pos++]`. -/
def fill_names (pred : String → Bool) :
    List storage_subdir → Nat → List (Option String) → List (Option String)
  | [], _, result => result
  | subdir :: l, pos, result =>
    if pred subdir.name && subdir.has_settings then
      fill_names pred l (pos + 1) (result.set pos (some subdir.name))
    else
      fill_names pred l pos result

/-- Source storage.c:423, connman_storage_get_services.  The result is the NULL-terminated
array (`none` is a NULL slot), or `none` for a NULL return. -/
def connman_storage_get_services (env : Env) (dir : Option (List dirent)) (fs : Fs)
    (w : World) : Option (List (Option String)) × World :=
  let w := if !w.storage.initialized then storage_dir_init env dir fs w else w
  if !w.storage.initialized then
    (none, w)
  else
    let sum := count_names (is_service_dir_name env) w.storage.subdirs 0
    let result : List (Option String) := List.replicate (sum + 1) none
    let result := fill_names (is_service_dir_name env) w.storage.subdirs 0 result
    (some result, w)

/-- Source storage.c:646, __connman_storage_get_providers.  The result is the NULL-terminated
array (`none` is a NULL slot), or `none` for a NULL return. -/
def __connman_storage_get_providers (env : Env) (dir : Option (List dirent)) (fs : Fs)
    (w : World) : Option (List (Option String)) × World :=
  let w := if !w.storage.initialized then storage_dir_init env dir fs w else w
  if !w.storage.initialized then
    (none, w)
  else
    let sum := count_names is_provider_dir_name w.storage.subdirs 0
    let result : List (Option String) := List.replicate (sum + 1) none
    let result := fill_names is_provider_dir_name w.storage.subdirs 0 result
    (some result, w)

/-- Source storage.c:683, __connman_storage_cleanup. -/
def __connman_storage_cleanup (env : Env) (fuel : Nat) (w : World) : Option World :=
  storage_dir_cleanup env fuel w

/-! ## Settings persistence (storage.c:273-566) -/

/-- Source storage.c:273, storage_load: the document, or `none` for NULL. -/
def storage_load (env : Env) (fs : Fs) (pathname : String) : Option GKeyFile :=
  match g_key_file_load_from_file env fs pathname with
  | none => none
  | some keyfile => some keyfile

/-- Source storage.c:293, storage_save. -/
def storage_save (env : Env) (fs : Fs) (keyfile : GKeyFile) (pathname : String) : Int × Fs :=
  let data := env.g_key_file_to_data keyfile
  match g_file_set_contents fs pathname data with
  | (false, fs1) => (- EIO, fs1)
  | (true, fs1) => (0, fs1)

/-- Source storage.c:398, __connman_storage_open_service. -/
def __connman_storage_open_service (env : Env) (fs : Fs) (service_id : String) :
    Option GKeyFile :=
  if !service_id_is_valid env service_id then
    none
  else
    let pathname := env.STORAGEDIR ++ "/" ++ service_id ++ "/" ++ SETTINGS
    match storage_load env fs pathname with
    | some keyfile => some keyfile
    | none => some g_key_file_new

/-- Source storage.c:454, connman_storage_load_service. -/
def connman_storage_load_service (env : Env) (fs : Fs) (service_id : String) :
    Option GKeyFile :=
  if !service_id_is_valid env service_id then
    none
  else
    let pathname := env.STORAGEDIR ++ "/" ++ service_id ++ "/" ++ SETTINGS
    storage_load env fs pathname

/-- Source storage.c:472, __connman_storage_save_service: the return value and the file
system after the call. -/
def __connman_storage_save_service (env : Env) (fs : Fs) (keyfile : GKeyFile)
    (service_id : String) : Int × Fs :=
  if !service_id_is_valid env service_id then
    (- EINVAL, fs)
  else
    let dirname := env.STORAGEDIR ++ "/" ++ service_id
    if !g_file_test fs dirname .G_FILE_TEST_IS_DIR then
      match mkdir fs dirname with
      | .error errno =>
        if errno != EEXIST then
          (- errno, fs)
        else
          storage_save env fs keyfile (dirname ++ "/" ++ SETTINGS)
      | .ok fs1 => storage_save env fs1 keyfile (dirname ++ "/" ++ SETTINGS)
    else
      storage_save env fs keyfile (dirname ++ "/" ++ SETTINGS)

/-- Source storage.c:505, remove_file. -/
def remove_file (env : Env) (fs : Fs) (service_id file : String) : Bool × Fs :=
  let pathname := env.STORAGEDIR ++ "/" ++ service_id ++ "/" ++ file
  if !g_file_test fs pathname .G_FILE_TEST_EXISTS then
    (true, fs)
  else if g_file_test fs pathname .G_FILE_TEST_IS_REGULAR then
    (true, after fs (unlink env fs pathname))
  else
    (false, fs)

/-- Source storage.c:525, remove_dir. -/
def remove_dir (env : Env) (fs : Fs) (service_id : String) : Bool × Fs :=
  let pathname := env.STORAGEDIR ++ "/" ++ service_id
  if !g_file_test fs pathname .G_FILE_TEST_EXISTS then
    (true, fs)
  else if g_file_test fs pathname .G_FILE_TEST_IS_DIR then
    (true, after fs (rmdir env fs pathname))
  else
    (false, fs)

/-- Source storage.c:545, __connman_storage_remove_service. -/
def __connman_storage_remove_service (env : Env) (fs : Fs) (service_id : String) :
    Bool × Fs :=
  match remove_file env fs service_id SETTINGS with
  | (false, fs1) => (false, fs1)
  | (true, fs1) =>
    match remove_file env fs1 service_id "data" with
    | (false, fs2) => (false, fs2)
    | (true, fs2) =>
      match remove_dir env fs2 service_id with
      | (false, fs3) => (false, fs3)
      | (true, fs3) => (true, fs3)

/-- Source storage.c:606, remove_all: the results of the two remove_file calls are
dropped, only their effect on the file system remains. -/
def remove_all (env : Env) (fs : Fs) (id : String) : Bool × Fs :=
  let fs1 := (remove_file env fs id SETTINGS).2
  let fs2 := (remove_file env fs1 id "data").2
  match remove_dir env fs2 id with
  | (false, fs3) => (false, fs3)
  | (true, fs3) => (true, fs3)

/-- Source storage.c:620, __connman_storage_remove_provider. -/
def __connman_storage_remove_provider (env : Env) (fs : Fs) (identifier : String) :
    Bool × Fs :=
  let id := "provider" ++ "_" ++ identifier
  let fs1 := (remove_all env fs id).2
  let id := "vpn" ++ "_" ++ identifier
  match remove_all env fs1 id with
  | (removed, fs2) => (removed, fs2)

/-! ## Concrete environment used for evaluation -/

/-- The characters allowed in an element of a D-Bus object path: `[A-Za-z0-9_]`. -/
def dbus_elem_char (c : Char) : Bool :=
  c.isAlphanum || c == '_'

/-- The elements of a D-Bus object path after a slash: each one non-empty, made of
`[A-Za-z0-9_]`, separated by single slashes, with no trailing slash. -/
def dbus_path_elems : Bool → List Char → Bool
  | after_slash, [] => !after_slash
  | after_slash, c :: cs =>
    if c == '/' then
      if after_slash then false else dbus_path_elems true cs
    else if dbus_elem_char c then dbus_path_elems false cs
    else false

/-- The object-path syntax of the D-Bus specification, as libdbus checks it. -/
def dbus_path_syntax (path : String) : Bool :=
  match path.data with
  | [] => false
  | c :: cs => c == '/' && (cs.isEmpty || dbus_path_elems true cs)

/-- A concrete environment: the usual build constants, the D-Bus object-path syntax, and a
key-file codec that keeps the bytes as the single value of one section. -/
def env0 : Env :=
  { STORAGEDIR := "/var/lib/connman"
    CONNMAN_PATH := "/net/connman"
    dbus_validate_path := dbus_path_syntax
    g_key_file_load_from_data := fun data => some [("raw", [("data", data)])]
    g_key_file_to_data := fun keyfile =>
      match keyfile with
      | (_, (_, v) :: _) :: _ => v
      | _ => ""
    unlink_refused := fun _ _ => none
    rmdir_refused := fun _ _ => none }

/-- The same environment with the storage root on a read-only file system: every unlink
and rmdir of an existing entry is refused with EROFS. -/
def env_readonly : Env :=
  { env0 with
    unlink_refused := fun _ _ => some EROFS
    rmdir_refused := fun _ _ => some EROFS }


/-! ## Auxiliary definitions for the statements -/

/-- The records a query lists: classified by `pred` and holding a settings file. -/
def listed (pred : String → Bool) (subdirs : List storage_subdir) : List storage_subdir :=
  subdirs.filter (fun r => pred r.name && r.has_settings)

/-- The directory entries for which the scan of storage_dir_init appends a record. -/
def scanned (d : dirent) : Bool :=
  !(d.d_name = "." || d.d_name = "..") && (d.d_type = .DT_DIR || d.d_type = .DT_UNKNOWN)

/-- Whether a path is absent or a regular file. -/
def absent_or_regular (fs : Fs) (path : String) : Bool :=
  match stat fs path with
  | none => true
  | some n => S_ISREG n

/-- Whether a path is absent or a directory. -/
def absent_or_dir (fs : Fs) (path : String) : Bool :=
  match stat fs path with
  | none => true
  | some n => S_ISDIR n

/-! ## Runs of the mirror -/

/-- One interaction with the mirror: an enumeration query, an event delivered to the root
callback, an event delivered to the callback bound to the record at `user_data`, or the
explicit teardown.  The file system (and the root listing) are those at that moment;
`fuel` bounds the iterations of the teardown loop. -/
inductive Action where
  | get_services (dir : Option (List dirent)) (fs : Fs)
  | get_providers (dir : Option (List dirent)) (fs : Fs)
  | root_event (fs : Fs) (fuel : Nat) (event : inotify_event)
  | subdir_event (fs : Fs) (event : inotify_event) (user_data : Nat)
  | cleanup (fuel : Nat)

/-- The registration storage_dir_init makes for the storage root. -/
def root_registration (env : Env) : Registration :=
  { path := env.STORAGEDIR, callback := .storage_inotify_cb, user_data := none,
    free_func := none }

/-- The registration storage_subdir_append makes for a record. -/
def subdir_registration (env : Env) (r : storage_subdir) : Registration :=
  { path := env.STORAGEDIR ++ "/" ++ r.name, callback := .storage_inotify_subdir_cb,
    user_data := some r.addr, free_func := some .storage_subdir_free }

/-- An event reaches a callback only through a registration: root events need the root
registration, per-subdirectory events a registration of the subdirectory callback with
that record pointer.  Queries and teardown are calls and always possible. -/
def Action.enabled (env : Env) (w : World) : Action → Bool
  | .root_event _ _ _ =>
    w.inotify.any (fun g => g.is env.STORAGEDIR .storage_inotify_cb none)
  | .subdir_event _ _ p =>
    w.inotify.any (fun g => g.callback == .storage_inotify_subdir_cb && g.user_data == some p)
  | _ => true

/-- The state after an action; `none` when the teardown loop is still running after
`fuel` iterations. -/
def Action.run (env : Env) (w : World) : Action → Option World
  | .get_services dir fs => some (connman_storage_get_services env dir fs w).2
  | .get_providers dir fs => some (__connman_storage_get_providers env dir fs w).2
  | .root_event fs fuel event => storage_inotify_cb env fs fuel w event
  | .subdir_event fs event p => some (storage_inotify_subdir_cb env fs w event p)
  | .cleanup fuel => __connman_storage_cleanup env fuel w

/-- Run a sequence of actions, each of which must be enabled and satisfy the side
condition `guard` in the state it meets. -/
def run (env : Env) (guard : World → Action → Bool) : World → List Action → Option World
  | w, [] => some w
  | w, a :: rest =>
    if a.enabled env w && guard w a then
      match a.run env w with
      | some w1 => run env guard w1 rest
      | none => none
    else
      none

/-- No side condition: every enabled action is allowed. -/
def any_action : World → Action → Bool :=
  fun _ _ => true

/-- Whether the root callback appends a record for this event (storage.c:212). -/
def root_event_appends (event : inotify_event) : Bool :=
  !mask_has event.mask IN_DELETE_SELF && mask_has event.mask IN_ISDIR
    && !(mask_has event.mask IN_DELETE || mask_has event.mask IN_MOVED_FROM)
    && (mask_has event.mask IN_CREATE || mask_has event.mask IN_MOVED_TO)

/-- The side condition under which names stay unique: a scan reads no name twice among the
entries it appends, and a root event that appends a record names a directory that has no
record at that moment. -/
def names_fresh (w : World) : Action → Bool
  | .get_services (some entries) _ =>
    w.storage.initialized || decide ((entries.filter scanned).map (fun d => d.d_name)).Nodup
  | .get_providers (some entries) _ =>
    w.storage.initialized || decide ((entries.filter scanned).map (fun d => d.d_name)).Nodup
  | .root_event _ _ event =>
    !root_event_appends event || !w.storage.subdirs.any (fun r => r.name == event.name)
  | _ => true

/-- The bookkeeping that ties records, addresses and registrations together. -/
structure Linked (env : Env) (w : World) : Prop where
  addr_lt : ∀ r ∈ w.storage.subdirs, r.addr < w.next_addr
  addr_nodup : (w.storage.subdirs.map (fun r => r.addr)).Nodup
  watched : ∀ r ∈ w.storage.subdirs, subdir_registration env r ∈ w.inotify
  owned : ∀ g ∈ w.inotify,
    g = root_registration env ∨ ∃ r ∈ w.storage.subdirs, g = subdir_registration env r
  reg_nodup : w.inotify.Nodup

/-- An uninitialized mirror holds no record and no registration. -/
def Idle (w : World) : Prop :=
  w.storage.initialized = false → w.storage.subdirs = [] ∧ w.inotify = []

/-- A record has a registered per-subdirectory watch: the registry answers the lookup for
the record's path, the subdirectory callback and the record pointer with a registration
whose cleanup function is storage_subdir_free. -/
def record_watched (env : Env) (inotify : List Registration) (r : storage_subdir) : Bool :=
  match inotify.find? (fun g =>
      g.is (env.STORAGEDIR ++ "/" ++ r.name) .storage_inotify_subdir_cb (some r.addr)) with
  | some g => g.free_func == some .storage_subdir_free
  | none => false

/-- Each record of the mirror is a distinct allocation and has a registered
per-subdirectory watch. -/
def each_record_watched (env : Env) (w : World) : Bool :=
  decide (w.storage.subdirs.map (fun r => r.addr)).Nodup
    && w.storage.subdirs.all (record_watched env w.inotify)

/-! ## Concrete states used for evaluation -/

/-- A mirror holding the two directories of the specification scenario and one directory
without a settings file. -/
def w_scenario : World :=
  { storage :=
      { initialized := true
        subdirs :=
          [ { addr := 3, name := "empty_dir", has_settings := false },
            { addr := 2, name := "provider_vpn1", has_settings := true },
            { addr := 1, name := "wifi_abcdef", has_settings := true } ] }
    inotify :=
      [ { path := "/var/lib/connman", callback := .storage_inotify_cb,
          user_data := none, free_func := none },
        { path := "/var/lib/connman/empty_dir", callback := .storage_inotify_subdir_cb,
          user_data := some 3, free_func := some .storage_subdir_free },
        { path := "/var/lib/connman/provider_vpn1", callback := .storage_inotify_subdir_cb,
          user_data := some 2, free_func := some .storage_subdir_free },
        { path := "/var/lib/connman/wifi_abcdef", callback := .storage_inotify_subdir_cb,
          user_data := some 1, free_func := some .storage_subdir_free } ]
    next_addr := 4 }

/-- A root listing with the two special entries, two directories, an entry of unknown type,
a regular file and a symbolic link. -/
def entries_mixed : List dirent :=
  [ { d_name := ".", d_type := .DT_DIR },
    { d_name := "..", d_type := .DT_DIR },
    { d_name := "wifi_abcdef", d_type := .DT_DIR },
    { d_name := "settings", d_type := .DT_REG },
    { d_name := "provider_vpn1", d_type := .DT_UNKNOWN },
    { d_name := "link", d_type := .DT_LNK } ]

/-- A storage root holding one directory `foo` in which `settings` is itself a directory. -/
def fs_settings_dir : Fs :=
  [ ("/var/lib/connman", Inode.dir),
    ("/var/lib/connman/foo", Inode.dir),
    ("/var/lib/connman/foo/settings", Inode.dir) ]

/-- What opendir and readdir deliver for the root of `fs_settings_dir`. -/
def entries_foo : List dirent :=
  [ { d_name := ".", d_type := .DT_DIR },
    { d_name := "..", d_type := .DT_DIR },
    { d_name := "foo", d_type := .DT_DIR } ]

/-- A file system holding only the empty storage root. -/
def fs_root : Fs :=
  [ ("/var/lib/connman", Inode.dir) ]

/-- A storage root with one service directory holding a regular settings file. -/
def fs_wifi : Fs :=
  [ ("/var/lib/connman", Inode.dir),
    ("/var/lib/connman/wifi_abcdef", Inode.dir),
    ("/var/lib/connman/wifi_abcdef/settings", Inode.reg "[wifi_abcdef]") ]

/-- The mirror after the first query on a root with two scanned directories. -/
def w_after_init : World :=
  (connman_storage_get_services env0 (some entries_mixed) fs_wifi World.start).2

/-- The event a watch on the storage root delivers when the root itself is deleted. -/
def event_delete_self : inotify_event :=
  { mask := IN_DELETE_SELF, name := "" }

/-- The event for a directory `a` created in the storage root. -/
def event_mkdir_a : inotify_event :=
  { mask := IN_CREATE ||| IN_ISDIR, name := "a" }

/-- The event for a directory renamed to `a` inside the storage root. -/
def event_moved_to_a : inotify_event :=
  { mask := IN_MOVED_TO ||| IN_ISDIR, name := "a" }

/-- A storage root holding the empty directory `a`. -/
def fs_a : Fs :=
  [ ("/var/lib/connman", Inode.dir), ("/var/lib/connman/a", Inode.dir) ]

/-- The root listing of an empty storage root. -/
def entries_empty : List dirent :=
  [ { d_name := ".", d_type := .DT_DIR }, { d_name := "..", d_type := .DT_DIR } ]

/-- A storage root whose directory `foo` holds a settings file and one further file. -/
def fs_foo_extra : Fs :=
  [ ("/var/lib/connman", Inode.dir),
    ("/var/lib/connman/foo", Inode.dir),
    ("/var/lib/connman/foo/settings", Inode.reg "[foo]"),
    ("/var/lib/connman/foo/extra", Inode.reg "x") ]

/-- A storage root in which `provider_vpn1` is a regular file and `vpn_vpn1` a directory
holding a settings file. -/
def fs_providers : Fs :=
  [ ("/var/lib/connman", Inode.dir),
    ("/var/lib/connman/provider_vpn1", Inode.reg ""),
    ("/var/lib/connman/vpn_vpn1", Inode.dir),
    ("/var/lib/connman/vpn_vpn1/settings", Inode.reg "[vpn1]") ]

/-- The event for a directory `a` deleted from the storage root. -/
def event_rmdir_a : inotify_event :=
  { mask := IN_DELETE ||| IN_ISDIR, name := "a" }

/-- The event for the file settings deleted from a watched subdirectory. -/
def event_settings_deleted : inotify_event :=
  { mask := IN_DELETE, name := "settings" }

/-- The event for the file settings created in a watched subdirectory. -/
def event_settings_created : inotify_event :=
  { mask := IN_CREATE, name := "settings" }

/-- A storage root holding the directory `a` with a regular settings file. -/
def fs_a_settings : Fs :=
  [ ("/var/lib/connman", Inode.dir),
    ("/var/lib/connman/a", Inode.dir),
    ("/var/lib/connman/a/settings", Inode.reg "[a]") ]

/-- The event for the directory `wifi_abcdef` deleted from the storage root. -/
def event_rmdir_wifi : inotify_event :=
  { mask := IN_DELETE ||| IN_ISDIR, name := "wifi_abcdef" }

/-- The record the first query creates for `wifi_abcdef` in `fs_wifi`. -/
def rec_wifi : storage_subdir :=
  { addr := 1, name := "wifi_abcdef", has_settings := true }

/-- The record the first query creates for `provider_vpn1` in `fs_wifi`. -/
def rec_provider : storage_subdir :=
  { addr := 2, name := "provider_vpn1", has_settings := false }

/-! # Properties -/

/-! ## Enumeration queries -/

theorem count_names_eq (pred : String → Bool) (l : List storage_subdir) (sum : Nat) :
    count_names pred l sum = sum + (listed pred l).length := by
  induction l generalizing sum with
  | nil => simp [count_names, listed]
  | cons r l ih =>
    unfold count_names
    by_cases h : (pred r.name && r.has_settings) = true
    · simp only [h, if_true, ih, listed, List.filter_cons, List.length_cons]
      omega
    · simp only [h, if_false, ih, listed, List.filter_cons]
      simp

theorem fill_names_eq (pred : String → Bool) (l : List storage_subdir) :
    ∀ (pre : List (Option String)) (n : Nat), (listed pred l).length ≤ n →
      fill_names pred l pre.length (pre ++ List.replicate n none)
        = pre ++ (listed pred l).map (fun r => some r.name)
            ++ List.replicate (n - (listed pred l).length) none := by
  induction l with
  | nil => intro pre n _; simp [fill_names, listed]
  | cons r l ih =>
    intro pre n hn
    unfold fill_names
    by_cases h : (pred r.name && r.has_settings) = true
    · have hl : listed pred (r :: l) = r :: listed pred l := by
        simp only [listed, List.filter_cons, h, if_true]
      rw [hl] at hn ⊢
      simp only [List.length_cons] at hn
      obtain ⟨m, rfl⟩ : ∃ m, n = m + 1 := ⟨n - 1, by omega⟩
      simp only [h, if_true]
      have hset : (pre ++ List.replicate (m + 1) none).set pre.length (some r.name)
          = (pre ++ [some r.name]) ++ List.replicate m (none : Option String) := by
        simp [List.replicate_succ]
      have hlen : pre.length + 1 = (pre ++ [some r.name]).length := by simp
      rw [hset, hlen, ih (pre ++ [some r.name]) m (by omega)]
      simp
    · have hl : listed pred (r :: l) = listed pred l := by
        simp only [listed, List.filter_cons, h]
        simp
      rw [hl] at hn ⊢
      simp only [h]
      simpa using ih pre n hn

/-- The array a query builds from the records: the listed names in list order, then NULL. -/
theorem names_array_eq (pred : String → Bool) (l : List storage_subdir) :
    fill_names pred l 0 (List.replicate (count_names pred l 0 + 1) none)
      = (listed pred l).map (fun r => some r.name) ++ [none] := by
  have h := fill_names_eq pred l [] ((listed pred l).length + 1) (by omega)
  simp only [List.length_nil, List.nil_append] at h
  rw [count_names_eq, Nat.zero_add, h]
  simp

/-- C1: in an initialized mirror, connman_storage_get_services returns exactly the names of
the records that are service directory names and have a settings file, and
__connman_storage_get_providers exactly the names of the records that are provider directory
names and have a settings file; each array holds these names in the order of the record
list, one slot per qualifying record, followed by the terminating NULL, and the mirror is
left as it was. -/
theorem get_services_providers_exact (env : Env) (dir : Option (List dirent)) (fs : Fs)
    (w : World) (hinit : w.storage.initialized = true) :
    connman_storage_get_services env dir fs w
        = (some (((w.storage.subdirs.filter
              (fun r => is_service_dir_name env r.name && r.has_settings)).map
              (fun r => some r.name)) ++ [none]), w)
      ∧ __connman_storage_get_providers env dir fs w
        = (some (((w.storage.subdirs.filter
              (fun r => is_provider_dir_name r.name && r.has_settings)).map
              (fun r => some r.name)) ++ [none]), w) := by
  constructor
  · simp only [connman_storage_get_services, hinit, Bool.not_true, Bool.false_eq_true,
      if_false]
    rw [names_array_eq]; rfl
  · simp only [__connman_storage_get_providers, hinit, Bool.not_true, Bool.false_eq_true,
      if_false]
    rw [names_array_eq]; rfl

/-- Witness for C1: the scenario of the specification, with one directory lacking settings. -/
theorem get_services_providers_exact_witness :
    w_scenario.storage.initialized = true
      ∧ connman_storage_get_services env0 none [] w_scenario
          = (some [some "wifi_abcdef", none], w_scenario)
      ∧ __connman_storage_get_providers env0 none [] w_scenario
          = (some [some "provider_vpn1", none], w_scenario) := by
  have h := get_services_providers_exact env0 none [] w_scenario rfl
  refine ⟨rfl, ?_, ?_⟩
  · rw [h.1]; decide
  · rw [h.2]; decide

/-! ## Record creation and first-time initialization -/

/-- The effect of storage_subdir_append written out as one state. -/
theorem storage_subdir_append_eq (env : Env) (fs : Fs) (w : World) (name : String) :
    storage_subdir_append env fs w name =
      { storage :=
          { initialized := w.storage.initialized
            subdirs :=
              { addr := w.next_addr, name := name,
                has_settings :=
                  (stat fs (env.STORAGEDIR ++ "/" ++ name ++ "/" ++ SETTINGS)).isSome }
                :: w.storage.subdirs }
        inotify :=
          { path := env.STORAGEDIR ++ "/" ++ name, callback := .storage_inotify_subdir_cb,
            user_data := some w.next_addr, free_func := some .storage_subdir_free }
            :: w.inotify
        next_addr := w.next_addr + 1 } := by
  unfold storage_subdir_append connman_inotify_register
  cases h : (stat fs (env.STORAGEDIR ++ "/" ++ name ++ "/" ++ SETTINGS)).isSome <;>
    simp [h]

theorem storage_dir_scan_cons (env : Env) (fs : Fs) (w : World) (d : dirent)
    (rest : List dirent) :
    storage_dir_scan env fs w (d :: rest) =
      if scanned d then storage_dir_scan env fs (storage_subdir_append env fs w d.d_name) rest
      else storage_dir_scan env fs w rest := by
  rw [storage_dir_scan]
  by_cases hname : (d.d_name = "." || d.d_name = "..") = true
  · simp [scanned, hname]
  · cases ht : d.d_type <;> simp [scanned, hname, ht]

theorem storage_dir_scan_initialized (env : Env) (fs : Fs) (entries : List dirent) :
    ∀ w : World, (storage_dir_scan env fs w entries).storage.initialized
      = w.storage.initialized := by
  induction entries with
  | nil => intro w; rfl
  | cons d rest ih =>
    intro w
    rw [storage_dir_scan_cons]
    split
    · rw [ih, storage_subdir_append_eq]
    · rw [ih]

theorem storage_dir_scan_names (env : Env) (fs : Fs) (entries : List dirent) :
    ∀ w : World, (storage_dir_scan env fs w entries).storage.subdirs.map (fun r => r.name)
      = ((entries.filter scanned).map (fun d => d.d_name)).reverse
          ++ w.storage.subdirs.map (fun r => r.name) := by
  induction entries with
  | nil => intro w; simp [storage_dir_scan]
  | cons d rest ih =>
    intro w
    rw [storage_dir_scan_cons]
    by_cases hd : scanned d = true
    · simp only [hd, if_true, ih, List.filter_cons, storage_subdir_append_eq]
      simp
    · simp only [hd, List.filter_cons]
      simpa using ih w

/-- The state after storage_dir_init when the mirror is not initialized and the root can be
opened with the given entries. -/
theorem storage_dir_init_opened (env : Env) (fs : Fs) (entries : List dirent) (w : World)
    (hinit : w.storage.initialized = false) :
    storage_dir_init env (some entries) fs w =
      { connman_inotify_register (storage_dir_scan env fs w entries) env.STORAGEDIR
          .storage_inotify_cb none none with
        storage :=
          { (connman_inotify_register (storage_dir_scan env fs w entries) env.STORAGEDIR
              .storage_inotify_cb none none).storage with initialized := true } } := by
  simp [storage_dir_init, hinit]

/-- Both queries, on a mirror that is not initialized and holds no record, run the scan
over the entries read from the root and leave the mirror initialized with one record per
scanned entry. -/
theorem query_initializes (env : Env) (fs : Fs) (entries : List dirent) (w : World)
    (hinit : w.storage.initialized = false) (hempty : w.storage.subdirs = []) :
    ((connman_storage_get_services env (some entries) fs w).2.storage.initialized = true
      ∧ (connman_storage_get_services env (some entries) fs w).2.storage.subdirs.map
          (fun r => r.name)
        = ((entries.filter scanned).map (fun d => d.d_name)).reverse)
    ∧ ((__connman_storage_get_providers env (some entries) fs w).2.storage.initialized = true
      ∧ (__connman_storage_get_providers env (some entries) fs w).2.storage.subdirs.map
          (fun r => r.name)
        = ((entries.filter scanned).map (fun d => d.d_name)).reverse) := by
  have hnames := storage_dir_scan_names env fs entries w
  rw [hempty] at hnames
  simp only [List.map_nil, List.append_nil] at hnames
  refine ⟨?_, ?_⟩
  · simp only [connman_storage_get_services, hinit, Bool.not_false, if_true,
      storage_dir_init_opened env fs entries w hinit]
    simp [connman_inotify_register, hnames]
  · simp only [__connman_storage_get_providers, hinit, Bool.not_false, if_true,
      storage_dir_init_opened env fs entries w hinit]
    simp [connman_inotify_register, hnames]

/-- C6: first-time initialization, success case.  For a mirror that is not initialized and
holds no record, and any list of entries read from a root directory that could be opened,
both enumeration queries leave the mirror initialized, holding one record for each entry
other than "." and ".." whose type is DT_DIR or DT_UNKNOWN (most recently read first) and
no record for any other entry. -/
theorem init_success_records (env : Env) (fs : Fs) (entries : List dirent) (w : World)
    (hinit : w.storage.initialized = false) (hempty : w.storage.subdirs = []) :
    ((connman_storage_get_services env (some entries) fs w).2.storage.initialized = true
      ∧ (connman_storage_get_services env (some entries) fs w).2.storage.subdirs.map
          (fun r => r.name)
        = ((entries.filter
            (fun d => !(d.d_name = "." || d.d_name = "..")
              && (d.d_type = .DT_DIR || d.d_type = .DT_UNKNOWN))).map
            (fun d => d.d_name)).reverse)
    ∧ ((__connman_storage_get_providers env (some entries) fs w).2.storage.initialized = true
      ∧ (__connman_storage_get_providers env (some entries) fs w).2.storage.subdirs.map
          (fun r => r.name)
        = ((entries.filter
            (fun d => !(d.d_name = "." || d.d_name = "..")
              && (d.d_type = .DT_DIR || d.d_type = .DT_UNKNOWN))).map
            (fun d => d.d_name)).reverse) :=
  query_initializes env fs entries w hinit hempty

/-- Witness for C6: a listing with both special entries and entries of four types. -/
theorem init_success_records_witness :
    (connman_storage_get_services env0 (some entries_mixed) [] World.start).2.storage.initialized
        = true
      ∧ (connman_storage_get_services env0 (some entries_mixed) []
          World.start).2.storage.subdirs.map (fun r => r.name)
        = ["provider_vpn1", "wifi_abcdef"] :=
  ⟨(init_success_records env0 [] entries_mixed World.start rfl rfl).1.1,
   (init_success_records env0 [] entries_mixed World.start rfl rfl).1.2.trans (by decide)⟩

/-- C5: evaluation at a directory named settings.  In a storage root where `foo/settings`
is a directory (so no regular file named settings exists in `foo`), storage_subdir_append
creates the record for `foo` with has_settings = true: the stat result is tested for
success only, not for S_ISREG. -/
theorem append_flags_settings_directory :
    g_file_test fs_settings_dir "/var/lib/connman/foo/settings" .G_FILE_TEST_IS_REGULAR = false
      ∧ (storage_subdir_append env0 fs_settings_dir World.start "foo").storage.subdirs
        = [ { addr := 1, name := "foo", has_settings := true } ] := by
  decide

/-- C2: evaluation of a run with no pending event.  Starting from the process start state,
a query initializes the mirror from a root whose directory `foo` holds a directory named
settings; no mutation follows, so no event is pending.  The record for `foo` has
has_settings = true although `foo/settings` does not exist as a regular file. -/
theorem scan_flags_settings_directory :
    World.start.storage.initialized = false
      ∧ (connman_storage_get_services env0 (some entries_foo) fs_settings_dir
          World.start).2.storage
        = { initialized := true,
            subdirs := [ { addr := 1, name := "foo", has_settings := true } ] }
      ∧ stat fs_settings_dir "/var/lib/connman/foo/settings" = some Inode.dir := by
  decide

/-! ## Identifier check of the service operations -/

theorem storage_save_ret (env : Env) (fs : Fs) (keyfile : GKeyFile) (pathname : String) :
    (storage_save env fs keyfile pathname).1 = 0
      ∨ (storage_save env fs keyfile pathname).1 = - EIO := by
  simp only [storage_save]
  rcases h : g_file_set_contents fs pathname (env.g_key_file_to_data keyfile) with ⟨b, fs1⟩
  cases b
  · right; rfl
  · left; rfl

theorem mkdir_errno (fs : Fs) (path : String) (errno : Int)
    (h : mkdir fs path = .error errno) :
    errno = EEXIST ∨ errno = ENOENT ∨ errno = ENOTDIR := by
  unfold mkdir at h
  split at h
  · left; injection h with h; exact h.symm
  · split at h
    · right; left; injection h with h; exact h.symm
    · cases h
    · right; right; injection h with h; exact h.symm

/-- C8: for every document and every identifier that fails service_id_is_valid,
__connman_storage_save_service returns -EINVAL and the file system after the call is the
file system before it: no directory is created and no file is written. -/
theorem save_service_invalid_no_io (env : Env) (fs : Fs) (keyfile : GKeyFile)
    (service_id : String) (hinvalid : service_id_is_valid env service_id = false) :
    __connman_storage_save_service env fs keyfile service_id = (- EINVAL, fs) := by
  simp [__connman_storage_save_service, hinvalid]

/-- Witness for C8: an identifier with a dot and a slash in front is rejected untouched. -/
theorem save_service_invalid_no_io_witness :
    service_id_is_valid env0 "../etc" = false
      ∧ __connman_storage_save_service env0 fs_root [("s", [("k", "v")])] "../etc"
        = (- EINVAL, fs_root) :=
  ⟨by decide, save_service_invalid_no_io env0 fs_root [("s", [("k", "v")])] "../etc" (by decide)⟩

/-- C7, as stated, fails: the identifier `provider_vpn1` is not a service directory name,
yet __connman_storage_save_service does not return -EINVAL for it (it returns 0). -/
theorem save_service_accepts_provider_prefix :
    ¬ ((__connman_storage_save_service env0 fs_root [] "provider_vpn1").1 = - EINVAL
        ↔ is_service_dir_name env0 "provider_vpn1" = false) := by
  decide

/-- C7, amended: the identifier check of __connman_storage_save_service is
service_id_is_valid, the path-syntax test alone.  For every identifier the call returns
-EINVAL if and only if service_id_is_valid is false; every name that is_service_dir_name
accepts passes this check, and a name starting with provider_ is rejected only when it
fails the path-syntax test. -/
theorem save_service_einval_iff_invalid (env : Env) (fs : Fs) (keyfile : GKeyFile)
    (service_id : String) :
    ((__connman_storage_save_service env fs keyfile service_id).1 = - EINVAL
        ↔ service_id_is_valid env service_id = false)
      ∧ (is_service_dir_name env service_id = true
          → service_id_is_valid env service_id = true)
      ∧ (strncmp_eq service_id "provider_" 9 = true
          → ((__connman_storage_save_service env fs keyfile service_id).1 = - EINVAL
              ↔ env.dbus_validate_path (env.CONNMAN_PATH ++ "/service/" ++ service_id)
                  = false)) := by
  have hiff : (__connman_storage_save_service env fs keyfile service_id).1 = - EINVAL
      ↔ service_id_is_valid env service_id = false := by
    constructor
    · intro h
      by_contra hv
      have hv1 : service_id_is_valid env service_id = true := by
        cases hx : service_id_is_valid env service_id
        · exact absurd hx hv
        · rfl
      have hsave : ∀ fs1 p, (storage_save env fs1 keyfile p).1 ≠ - EINVAL := by
        intro fs1 p hp
        rcases storage_save_ret env fs1 keyfile p with h0 | h0 <;>
          · rw [h0] at hp; revert hp; decide
      simp only [__connman_storage_save_service, hv1, Bool.not_true, Bool.false_eq_true,
        if_false] at h
      split at h
      · split at h
        · rename_i errno hmk
          split at h
          · rcases mkdir_errno _ _ _ hmk with he | he | he
            · rename_i hne; simp [he] at hne
            · rw [he] at h; exact absurd (show - ENOENT = - EINVAL from h) (by decide)
            · rw [he] at h; exact absurd (show - ENOTDIR = - EINVAL from h) (by decide)
          · exact hsave _ _ h
        · exact hsave _ _ h
      · exact hsave _ _ h
    · intro h
      simp [__connman_storage_save_service, h]
  refine ⟨hiff, ?_, ?_⟩
  · intro h
    unfold is_service_dir_name at h
    cases hv : service_id_is_valid env service_id
    · simp [hv] at h
    · rfl
  · intro _
    rw [hiff]
    simp [service_id_is_valid]

/-- Witness for the amended C7: a service name passes the check, and a name starting with
provider_ is rejected once it contains a character outside the path syntax. -/
theorem save_service_einval_iff_invalid_witness :
    is_service_dir_name env0 "wifi_abcdef" = true
      ∧ service_id_is_valid env0 "wifi_abcdef" = true
      ∧ strncmp_eq "provider_a-b" "provider_" 9 = true
      ∧ (__connman_storage_save_service env0 fs_root [] "provider_a-b").1 = - EINVAL :=
  ⟨by decide,
   (save_service_einval_iff_invalid env0 fs_root [] "wifi_abcdef").2.1 (by decide),
   by decide,
   ((save_service_einval_iff_invalid env0 fs_root [] "provider_a-b").2.2 (by decide)).2
     (by decide)⟩

/-! ## Opening a service document -/

/-- C9: __connman_storage_open_service returns no document exactly when the identifier
fails service_id_is_valid.  For a valid identifier it returns a document: the one loaded
from STORAGEDIR/id/settings when loading succeeds, and the fresh empty document (no
section, no key) when loading fails, in particular when the file is absent or its bytes
cannot be parsed. -/
theorem open_service_document (env : Env) (fs : Fs) (service_id : String) :
    (__connman_storage_open_service env fs service_id = none
        ↔ service_id_is_valid env service_id = false)
      ∧ (service_id_is_valid env service_id = true →
          (∀ keyfile,
              storage_load env fs (env.STORAGEDIR ++ "/" ++ service_id ++ "/" ++ SETTINGS)
                = some keyfile
              → __connman_storage_open_service env fs service_id = some keyfile)
          ∧ (storage_load env fs (env.STORAGEDIR ++ "/" ++ service_id ++ "/" ++ SETTINGS)
                = none
              → __connman_storage_open_service env fs service_id = some [])
          ∧ (stat fs (env.STORAGEDIR ++ "/" ++ service_id ++ "/" ++ SETTINGS) = none
              → __connman_storage_open_service env fs service_id = some [])
          ∧ (∀ content,
              stat fs (env.STORAGEDIR ++ "/" ++ service_id ++ "/" ++ SETTINGS)
                = some (Inode.reg content)
              → env.g_key_file_load_from_data content = none
              → __connman_storage_open_service env fs service_id = some [])) := by
  constructor
  · cases hv : service_id_is_valid env service_id
    · simp [__connman_storage_open_service, hv]
    · simp only [__connman_storage_open_service, hv, Bool.not_true, Bool.false_eq_true,
        if_false]
      constructor
      · intro h; split at h <;> cases h
      · intro h; cases h
  · intro hv
    refine ⟨?_, ?_, ?_, ?_⟩
    · intro keyfile h
      simp [__connman_storage_open_service, hv, h]
    · intro h
      simp [__connman_storage_open_service, hv, h, g_key_file_new]
    · intro h
      simp [__connman_storage_open_service, hv, storage_load, g_key_file_load_from_file, h,
        g_key_file_new]
    · intro content h hp
      simp [__connman_storage_open_service, hv, storage_load, g_key_file_load_from_file, h,
        hp, g_key_file_new]

/-- Witness for C9: a stored document is loaded, a missing one is replaced by the empty
document, and an identifier with a blank yields no document. -/
theorem open_service_document_witness :
    service_id_is_valid env0 "wifi_abcdef" = true
      ∧ __connman_storage_open_service env0 fs_wifi "wifi_abcdef"
          = some [("raw", [("data", "[wifi_abcdef]")])]
      ∧ __connman_storage_open_service env0 fs_root "wifi_abcdef" = some []
      ∧ __connman_storage_open_service env0 fs_wifi "a b" = none :=
  ⟨by decide,
   ((open_service_document env0 fs_wifi "wifi_abcdef").2 (by decide)).1 _ (by decide),
   ((open_service_document env0 fs_root "wifi_abcdef").2 (by decide)).2.2.1 (by decide),
   (open_service_document env0 fs_wifi "a b").1.2 (by decide)⟩

/-! ## Removal of a service directory -/

theorem stat_fs_erase (fs : Fs) (p q : String) :
    stat (fs_erase fs p) q = if p = q then none else stat fs q := by
  induction fs with
  | nil => simp [fs_erase, stat]
  | cons e rest ih =>
    obtain ⟨k, n⟩ := e
    unfold fs_erase at ih ⊢
    by_cases hk : k = p
    · subst hk
      simp only [List.filter_cons, beq_self_eq_true, Bool.not_true, Bool.false_eq_true,
        if_false, ih]
      by_cases hq : k = q
      · simp [hq]
      · simp [hq, stat]
    · have hb : (!(k == p)) = true := by simp [hk]
      simp only [List.filter_cons, hb, if_true, stat, ih]
      by_cases hq : k = q
      · subst hq; simp [hk, Ne.symm hk]
      · simp [hq]

theorem string_append_ne_self (a b : String) (hb : b ≠ "") : a ++ b ≠ a := by
  intro h
  have hd : (a ++ b).data = a.data := by rw [h]
  rw [String.data_append] at hd
  have hnil : b.data = [] := by simpa using hd
  exact hb (String.ext hnil)

theorem string_append_left_cancel (a b c : String) (h : a ++ b = a ++ c) : b = c := by
  have hd : (a ++ b).data = (a ++ c).data := by rw [h]
  rw [String.data_append, String.data_append] at hd
  exact String.ext (List.append_cancel_left hd)

theorem settings_path_ne_data_path (dirname : String) :
    dirname ++ "/" ++ SETTINGS ≠ dirname ++ "/" ++ "data" := by
  intro h
  have := string_append_left_cancel _ _ _ h
  revert this
  decide

theorem file_path_ne_dir_path (dirname file : String) : dirname ++ "/" ++ file ≠ dirname := by
  rw [String.append_assoc]
  apply string_append_ne_self
  intro h
  have hd : ("/" ++ file).data = "".data := by rw [h]
  rw [String.data_append] at hd
  simp at hd

theorem remove_file_ret (env : Env) (fs : Fs) (service_id file : String) :
    (remove_file env fs service_id file).1
      = absent_or_regular fs (env.STORAGEDIR ++ "/" ++ service_id ++ "/" ++ file) := by
  rcases hs : stat fs (env.STORAGEDIR ++ "/" ++ service_id ++ "/" ++ file) with _ | n
  · simp [remove_file, absent_or_regular, g_file_test, hs]
  · cases n <;> simp [remove_file, absent_or_regular, g_file_test, hs, S_ISREG]

theorem remove_file_stat_other (env : Env) (fs : Fs) (service_id file q : String)
    (hq : env.STORAGEDIR ++ "/" ++ service_id ++ "/" ++ file ≠ q) :
    stat (remove_file env fs service_id file).2 q = stat fs q := by
  rcases hs : stat fs (env.STORAGEDIR ++ "/" ++ service_id ++ "/" ++ file) with _ | n
  · simp [remove_file, g_file_test, hs]
  · cases hr : env.unlink_refused fs (env.STORAGEDIR ++ "/" ++ service_id ++ "/" ++ file) <;>
      cases n <;>
      simp [remove_file, g_file_test, unlink, after, hs, hr, S_ISREG, stat_fs_erase, hq]

/-- After remove_file returned true its path is absent or, when unlink failed, still a
regular file. -/
theorem remove_file_stat_self (env : Env) (fs : Fs) (service_id file : String)
    (h : (remove_file env fs service_id file).1 = true) :
    absent_or_regular (remove_file env fs service_id file).2
      (env.STORAGEDIR ++ "/" ++ service_id ++ "/" ++ file) = true := by
  rcases hs : stat fs (env.STORAGEDIR ++ "/" ++ service_id ++ "/" ++ file) with _ | n
  · simp [remove_file, g_file_test, absent_or_regular, hs]
  · cases hr : env.unlink_refused fs (env.STORAGEDIR ++ "/" ++ service_id ++ "/" ++ file) <;>
      cases n <;>
      simp [remove_file, g_file_test, unlink, after, hs, hr, S_ISREG, stat_fs_erase,
        absent_or_regular] at h ⊢

theorem remove_dir_ret (env : Env) (fs : Fs) (service_id : String) :
    (remove_dir env fs service_id).1
      = absent_or_dir fs (env.STORAGEDIR ++ "/" ++ service_id) := by
  rcases hs : stat fs (env.STORAGEDIR ++ "/" ++ service_id) with _ | n
  · simp [remove_dir, absent_or_dir, g_file_test, hs]
  · cases n <;> simp [remove_dir, absent_or_dir, g_file_test, hs, S_ISDIR]

theorem remove_dir_stat_other (env : Env) (fs : Fs) (service_id q : String)
    (hq : env.STORAGEDIR ++ "/" ++ service_id ≠ q) :
    stat (remove_dir env fs service_id).2 q = stat fs q := by
  rcases hs : stat fs (env.STORAGEDIR ++ "/" ++ service_id) with _ | n
  · simp [remove_dir, g_file_test, hs]
  · cases n
    · simp [remove_dir, g_file_test, hs, S_ISDIR]
    · cases hr : env.rmdir_refused fs (env.STORAGEDIR ++ "/" ++ service_id)
      · by_cases hc : fs_has_child fs (env.STORAGEDIR ++ "/" ++ service_id) = true
        · simp [remove_dir, g_file_test, rmdir, after, hs, hr, S_ISDIR, hc]
        · simp [remove_dir, g_file_test, rmdir, after, hs, hr, S_ISDIR, hc, stat_fs_erase, hq]
      · simp [remove_dir, g_file_test, rmdir, after, hs, hr, S_ISDIR]
    · simp [remove_dir, g_file_test, hs, S_ISDIR]

theorem remove_dir_stat_self (env : Env) (fs : Fs) (service_id : String)
    (h : (remove_dir env fs service_id).1 = true) :
    absent_or_dir (remove_dir env fs service_id).2 (env.STORAGEDIR ++ "/" ++ service_id)
      = true := by
  rcases hs : stat fs (env.STORAGEDIR ++ "/" ++ service_id) with _ | n
  · simp [remove_dir, g_file_test, absent_or_dir, hs]
  · cases n
    · simp [remove_dir, g_file_test, hs, S_ISDIR] at h
    · cases hr : env.rmdir_refused fs (env.STORAGEDIR ++ "/" ++ service_id)
      · by_cases hc : fs_has_child fs (env.STORAGEDIR ++ "/" ++ service_id) = true
        · simp [remove_dir, g_file_test, rmdir, after, hs, hr, S_ISDIR, hc, absent_or_dir]
        · simp [remove_dir, g_file_test, rmdir, after, hs, hr, S_ISDIR, hc, absent_or_dir,
            stat_fs_erase]
      · simp [remove_dir, g_file_test, rmdir, after, hs, hr, S_ISDIR, absent_or_dir]
    · simp [remove_dir, g_file_test, hs, S_ISDIR] at h

/-- The three steps of __connman_storage_remove_service as nested conditionals. -/
theorem remove_service_steps (env : Env) (fs : Fs) (service_id : String) :
    __connman_storage_remove_service env fs service_id =
      if (remove_file env fs service_id SETTINGS).1 then
        if (remove_file env (remove_file env fs service_id SETTINGS).2 service_id "data").1 then
          remove_dir env
            (remove_file env (remove_file env fs service_id SETTINGS).2 service_id "data").2
            service_id
        else
          (false,
            (remove_file env (remove_file env fs service_id SETTINGS).2 service_id "data").2)
      else
        (false, (remove_file env fs service_id SETTINGS).2) := by
  unfold __connman_storage_remove_service
  rcases h1 : remove_file env fs service_id SETTINGS with ⟨b1, fs1⟩
  cases b1
  · simp
  · simp only [if_true]
    rcases h2 : remove_file env fs1 service_id "data" with ⟨b2, fs2⟩
    cases b2
    · simp
    · simp only [if_true]
      rcases h3 : remove_dir env fs2 service_id with ⟨b3, fs3⟩
      cases b3 <;> rfl

/-- The return value of __connman_storage_remove_service in terms of the file system
before the call. -/
theorem remove_service_ret (env : Env) (fs : Fs) (service_id : String) :
    (__connman_storage_remove_service env fs service_id).1
      = (absent_or_regular fs (env.STORAGEDIR ++ "/" ++ service_id ++ "/" ++ SETTINGS)
        && absent_or_regular fs (env.STORAGEDIR ++ "/" ++ service_id ++ "/" ++ "data")
        && absent_or_dir fs (env.STORAGEDIR ++ "/" ++ service_id)) := by
  have h2 : absent_or_regular (remove_file env fs service_id SETTINGS).2
      (env.STORAGEDIR ++ "/" ++ service_id ++ "/" ++ "data")
      = absent_or_regular fs (env.STORAGEDIR ++ "/" ++ service_id ++ "/" ++ "data") := by
    unfold absent_or_regular
    rw [remove_file_stat_other _ _ _ _ _ (settings_path_ne_data_path _)]
  have h3 : absent_or_dir
      (remove_file env (remove_file env fs service_id SETTINGS).2 service_id "data").2
      (env.STORAGEDIR ++ "/" ++ service_id)
      = absent_or_dir fs (env.STORAGEDIR ++ "/" ++ service_id) := by
    unfold absent_or_dir
    rw [remove_file_stat_other _ _ _ _ _ (file_path_ne_dir_path _ _),
      remove_file_stat_other _ _ _ _ _ (file_path_ne_dir_path _ _)]
  rw [remove_service_steps]
  cases hb1 : (remove_file env fs service_id SETTINGS).1
  · rw [remove_file_ret] at hb1; simp [hb1]
  · simp only [if_true]
    cases hb2 : (remove_file env (remove_file env fs service_id SETTINGS).2 service_id
        "data").1
    · rw [remove_file_ret, h2] at hb2
      simp [hb2]
    · rw [remove_file_ret] at hb1
      rw [remove_file_ret, h2] at hb2
      simp only [if_true, remove_dir_ret, h3, hb1, hb2, Bool.true_and]

/-- C10, as stated, fails: when STORAGEDIR/foo/settings is a directory the first call of
__connman_storage_remove_service already returns false. -/
theorem remove_service_settings_directory_fails :
    ¬ ((__connman_storage_remove_service env0 fs_settings_dir "foo").1 = true
        ∧ (__connman_storage_remove_service env0
            (__connman_storage_remove_service env0 fs_settings_dir "foo").2 "foo").1 = true) := by
  decide

/-- C10, amended: __connman_storage_remove_service returns true exactly when, before the
call, STORAGEDIR/id/settings and STORAGEDIR/id/data are each absent or a regular file and
STORAGEDIR/id is absent or a directory; and whenever a call returns true, a second call on
the same identifier right after it returns true as well. -/
theorem remove_service_idempotent (env : Env) (fs : Fs) (service_id : String) :
    ((__connman_storage_remove_service env fs service_id).1 = true
        ↔ (absent_or_regular fs (env.STORAGEDIR ++ "/" ++ service_id ++ "/" ++ SETTINGS) = true
          ∧ absent_or_regular fs (env.STORAGEDIR ++ "/" ++ service_id ++ "/" ++ "data") = true
          ∧ absent_or_dir fs (env.STORAGEDIR ++ "/" ++ service_id) = true))
      ∧ ((__connman_storage_remove_service env fs service_id).1 = true
          → (__connman_storage_remove_service env
              (__connman_storage_remove_service env fs service_id).2 service_id).1 = true) := by
  constructor
  · rw [remove_service_ret]
    simp [Bool.and_eq_true, and_assoc]
  · intro h
    have hsteps := remove_service_steps env fs service_id
    cases hb1 : (remove_file env fs service_id SETTINGS).1
    · rw [hsteps] at h; simp [hb1] at h
    · simp only [hb1, if_true] at hsteps
      cases hb2 : (remove_file env (remove_file env fs service_id SETTINGS).2 service_id
          "data").1
      · rw [hsteps] at h; simp [hb2] at h
      · simp only [hb2, if_true] at hsteps
        rw [hsteps] at h
        rw [remove_service_ret, hsteps]
        have e1 := remove_file_stat_self env fs service_id SETTINGS hb1
        have e2 := remove_file_stat_self env _ service_id "data" hb2
        have e3 := remove_dir_stat_self env _ service_id h
        have s1 : absent_or_regular (remove_dir env
            (remove_file env (remove_file env fs service_id SETTINGS).2 service_id "data").2
            service_id).2 (env.STORAGEDIR ++ "/" ++ service_id ++ "/" ++ SETTINGS) = true := by
          unfold absent_or_regular at e1 ⊢
          rw [remove_dir_stat_other _ _ _ _ (Ne.symm (file_path_ne_dir_path _ _)),
            remove_file_stat_other _ _ _ _ _ (Ne.symm (settings_path_ne_data_path _))]
          exact e1
        have s2 : absent_or_regular (remove_dir env
            (remove_file env (remove_file env fs service_id SETTINGS).2 service_id "data").2
            service_id).2 (env.STORAGEDIR ++ "/" ++ service_id ++ "/" ++ "data") = true := by
          unfold absent_or_regular at e2 ⊢
          rw [remove_dir_stat_other _ _ _ _ (Ne.symm (file_path_ne_dir_path _ _))]
          exact e2
        simp [s1, s2, e3]

/-- Witness for the amended C10: a service directory holding a regular settings file. -/
theorem remove_service_idempotent_witness :
    (__connman_storage_remove_service env0 fs_wifi "wifi_abcdef").1 = true
      ∧ (__connman_storage_remove_service env0
          (__connman_storage_remove_service env0 fs_wifi "wifi_abcdef").2 "wifi_abcdef").1
        = true :=
  ⟨(remove_service_idempotent env0 fs_wifi "wifi_abcdef").1.2 (by decide),
   (remove_service_idempotent env0 fs_wifi "wifi_abcdef").2
     ((remove_service_idempotent env0 fs_wifi "wifi_abcdef").1.2 (by decide))⟩

/-! ## Invariants of the mirror -/

theorem linked_start (env : Env) : Linked env World.start :=
  { addr_lt := by intro r hr; cases hr
    addr_nodup := List.nodup_nil
    watched := by intro r hr; cases hr
    owned := by intro g hg; cases hg
    reg_nodup := List.nodup_nil }

theorem subdir_registration_ne_root (env : Env) (r : storage_subdir) :
    subdir_registration env r ≠ root_registration env := by
  intro h
  have := congrArg Registration.callback h
  simp [subdir_registration, root_registration] at this

theorem subdir_registration_addr {env : Env} {r1 r2 : storage_subdir}
    (h : subdir_registration env r1 = subdir_registration env r2) : r1.addr = r2.addr := by
  have := congrArg Registration.user_data h
  simpa [subdir_registration] using this

theorem linked_append {env : Env} {w : World} (h : Linked env w) (fs : Fs) (name : String) :
    Linked env (storage_subdir_append env fs w name) := by
  rw [storage_subdir_append_eq]
  refine { addr_lt := ?_, addr_nodup := ?_, watched := ?_, owned := ?_, reg_nodup := ?_ }
  · intro r hr
    simp only [List.mem_cons] at hr
    rcases hr with rfl | hr
    · simp
    · have := h.addr_lt r hr
      simp only; omega
  · simp only [List.map_cons, List.nodup_cons]
    refine ⟨?_, h.addr_nodup⟩
    intro hmem
    obtain ⟨r, hr, heq⟩ := List.mem_map.mp hmem
    have := h.addr_lt r hr
    omega
  · intro r hr
    simp only [List.mem_cons] at hr ⊢
    rcases hr with rfl | hr
    · left; rfl
    · right; exact h.watched r hr
  · intro g hg
    simp only [List.mem_cons] at hg
    rcases hg with rfl | hg
    · right; exact ⟨_, List.mem_cons_self _ _, rfl⟩
    · rcases h.owned g hg with hroot | ⟨r, hr, hgr⟩
      · left; exact hroot
      · right; exact ⟨r, List.mem_cons_of_mem _ hr, hgr⟩
  · simp only [List.nodup_cons]
    refine ⟨?_, h.reg_nodup⟩
    intro hmem
    rcases h.owned _ hmem with hroot | ⟨r, hr, hgr⟩
    · have := congrArg Registration.callback hroot
      simp [root_registration] at this
    · have hu := congrArg Registration.user_data hgr
      simp only [subdir_registration, Option.some.injEq] at hu
      have := h.addr_lt r hr
      omega

theorem linked_subdirs_nodup {env : Env} {w : World} (h : Linked env w) :
    w.storage.subdirs.Nodup :=
  List.Nodup.of_map _ h.addr_nodup

theorem linked_addr_inj {env : Env} {w : World} (h : Linked env w) {r1 r2 : storage_subdir}
    (h1 : r1 ∈ w.storage.subdirs) (h2 : r2 ∈ w.storage.subdirs) (heq : r1.addr = r2.addr) :
    r1 = r2 :=
  List.inj_on_of_nodup_map h.addr_nodup h1 h2 heq

theorem g_list_remove_eq_erase (l : List storage_subdir) (r : storage_subdir)
    (hnd : (l.map (fun r => r.addr)).Nodup) (hr : r ∈ l) :
    g_list_remove l r.addr = l.erase r := by
  unfold g_list_remove
  induction l with
  | nil => cases hr
  | cons x rest ih =>
    simp only [List.map_cons, List.nodup_cons] at hnd
    by_cases hx : x = r
    · subst hx
      simp
    · have hrest : r ∈ rest := by
        rcases List.mem_cons.mp hr with h | h
        · exact absurd h.symm hx
        · exact h
      have haddr : x.addr ≠ r.addr := by
        intro heq
        apply hnd.1
        rw [heq]
        exact List.mem_map.mpr ⟨r, hrest, rfl⟩
      have hb : (x.addr == r.addr) = false := by simpa using haddr
      have hbe : (x == r) = false := by simpa using hx
      rw [List.eraseP_cons, List.erase_cons]
      simp only [hb, hbe, Bool.false_eq_true, if_false, cond_false]
      rw [ih hnd.2 hrest]

/-- Unregistering a record of a linked mirror removes its registration and, through the
cleanup function of the registration, the record itself. -/
theorem storage_subdir_unregister_eq {env : Env} {w : World} (h : Linked env w)
    {r : storage_subdir} (hr : r ∈ w.storage.subdirs) :
    storage_subdir_unregister env w r =
      { w with
        inotify := w.inotify.erase (subdir_registration env r)
        storage := { w.storage with subdirs := w.storage.subdirs.erase r } } := by
  have hmatch : (subdir_registration env r).is (env.STORAGEDIR ++ "/" ++ r.name)
      .storage_inotify_subdir_cb (some r.addr) = true := by
    simp [Registration.is, subdir_registration]
  unfold storage_subdir_unregister connman_inotify_unregister
  simp only
  cases hf : w.inotify.find? (fun g => g.is (env.STORAGEDIR ++ "/" ++ r.name)
      .storage_inotify_subdir_cb (some r.addr)) with
  | none =>
    have := List.find?_eq_none.mp hf _ (h.watched r hr)
    exact absurd hmatch this
  | some g =>
    have hg_mem : g ∈ w.inotify := List.mem_of_find?_eq_some hf
    have hg_is := List.find?_some hf
    simp only [Registration.is, Bool.and_eq_true, beq_iff_eq] at hg_is
    have hg : g = subdir_registration env r := by
      rcases h.owned g hg_mem with hroot | ⟨r2, hr2, hgr⟩
      · rw [hroot] at hg_is
        simp [root_registration] at hg_is
      · rw [hgr] at hg_is
        have haddr : r2.addr = r.addr := by
          simpa [subdir_registration] using hg_is.2
        rw [hgr, linked_addr_inj h hr2 hr haddr]
    subst hg
    simp only [subdir_registration, storage_subdir_free]
    rw [g_list_remove_eq_erase _ _ h.addr_nodup hr]

theorem linked_unregister {env : Env} {w : World} (h : Linked env w) {r : storage_subdir}
    (hr : r ∈ w.storage.subdirs) : Linked env (storage_subdir_unregister env w r) := by
  rw [storage_subdir_unregister_eq h hr]
  have hnd := linked_subdirs_nodup h
  refine { addr_lt := ?_, addr_nodup := ?_, watched := ?_, owned := ?_, reg_nodup := ?_ }
  · intro x hx
    exact h.addr_lt x (List.mem_of_mem_erase hx)
  · exact h.addr_nodup.sublist ((List.erase_sublist r w.storage.subdirs).map _)
  · intro x hx
    have hx2 := (List.Nodup.mem_erase_iff hnd).mp hx
    apply (List.mem_erase_of_ne _).mpr (h.watched x hx2.2)
    intro heq
    exact hx2.1 (linked_addr_inj h hx2.2 hr (subdir_registration_addr heq))
  · intro g hg
    have hg2 := (List.Nodup.mem_erase_iff h.reg_nodup).mp hg
    rcases h.owned g hg2.2 with hroot | ⟨x, hx, hgx⟩
    · left; exact hroot
    · right
      refine ⟨x, ?_, hgx⟩
      apply (List.mem_erase_of_ne _).mpr hx
      intro heq
      exact hg2.1 (by rw [hgx, heq])
  · exact h.reg_nodup.erase _

theorem storage_subdir_unregister_root_absent {env : Env} {w : World} (h : Linked env w)
    {r : storage_subdir} (hr : r ∈ w.storage.subdirs)
    (hroot : root_registration env ∉ w.inotify) :
    root_registration env ∉ (storage_subdir_unregister env w r).inotify := by
  rw [storage_subdir_unregister_eq h hr]
  intro hmem
  exact hroot (List.mem_of_mem_erase hmem)

/-- The teardown loop on a linked mirror ends within as many iterations as there are
records, with no record left. -/
theorem storage_dir_cleanup_loop_ends (env : Env) :
    ∀ (fuel : Nat) (w : World), Linked env w → w.storage.subdirs.length ≤ fuel →
      ∃ w1, storage_dir_cleanup_loop env fuel w = some w1
        ∧ w1.storage.subdirs = []
        ∧ w1.storage.initialized = w.storage.initialized
        ∧ w1.next_addr = w.next_addr
        ∧ Linked env w1
        ∧ (root_registration env ∉ w.inotify → root_registration env ∉ w1.inotify) := by
  intro fuel
  induction fuel with
  | zero =>
    intro w h hlen
    have hnil : w.storage.subdirs = [] := List.length_eq_zero.mp (Nat.le_zero.mp hlen)
    exact ⟨w, by simp [storage_dir_cleanup_loop, hnil], hnil, rfl, rfl, h, id⟩
  | succ fuel ih =>
    intro w h hlen
    cases hs : w.storage.subdirs with
    | nil => exact ⟨w, by simp [storage_dir_cleanup_loop, hs], hs, rfl, rfl, h, id⟩
    | cons r rest =>
      have hr : r ∈ w.storage.subdirs := by rw [hs]; exact List.mem_cons_self _ _
      have heq := storage_subdir_unregister_eq h hr
      have hlen2 : (storage_subdir_unregister env w r).storage.subdirs.length ≤ fuel := by
        rw [heq]
        simp only [hs, List.erase_cons_head]
        rw [hs] at hlen
        simp only [List.length_cons] at hlen
        omega
      obtain ⟨w1, hrun, hnil, hinit, haddr, hlinked, hroot⟩ :=
        ih (storage_subdir_unregister env w r) (linked_unregister h hr) hlen2
      refine ⟨w1, ?_, hnil, ?_, ?_, hlinked, ?_⟩
      · simp only [storage_dir_cleanup_loop, hs]
        exact hrun
      · rw [hinit, heq]
      · rw [haddr, heq]
      · intro hno
        exact hroot (storage_subdir_unregister_root_absent h hr hno)

/-- Unregistering the root callback of a linked mirror removes the root registration and
runs no cleanup function. -/
theorem unregister_root_eq {env : Env} {w : World} (h : Linked env w) :
    connman_inotify_unregister w env.STORAGEDIR .storage_inotify_cb none =
      { w with inotify := w.inotify.erase (root_registration env) } := by
  unfold connman_inotify_unregister
  cases hf : w.inotify.find? (fun g => g.is env.STORAGEDIR .storage_inotify_cb none) with
  | none =>
    have hno : root_registration env ∉ w.inotify := by
      intro hmem
      have := List.find?_eq_none.mp hf _ hmem
      simp [Registration.is, root_registration] at this
    simp only [List.erase_of_not_mem hno]
  | some g =>
    have hg_mem : g ∈ w.inotify := List.mem_of_find?_eq_some hf
    have hg_is := List.find?_some hf
    simp only [Registration.is, Bool.and_eq_true, beq_iff_eq] at hg_is
    have hg : g = root_registration env := by
      rcases h.owned g hg_mem with hroot | ⟨r, _, hgr⟩
      · exact hroot
      · rw [hgr] at hg_is
        simp [subdir_registration] at hg_is
    subst hg
    simp [root_registration]

/-- Teardown of an initialized linked mirror returns, within as many loop iterations as
there are records, and leaves no record, no registration and initialized = false. -/
theorem storage_dir_cleanup_ends {env : Env} {w : World} (h : Linked env w)
    (hinit : w.storage.initialized = true) (fuel : Nat)
    (hfuel : w.storage.subdirs.length ≤ fuel) :
    storage_dir_cleanup env fuel w =
      some { storage := { initialized := false, subdirs := [] }, inotify := [],
             next_addr := w.next_addr } := by
  have hlinked1 : Linked env { w with inotify := w.inotify.erase (root_registration env) } :=
    { addr_lt := h.addr_lt
      addr_nodup := h.addr_nodup
      watched := by
        intro r hr
        exact (List.mem_erase_of_ne (subdir_registration_ne_root env r)).mpr (h.watched r hr)
      owned := by
        intro g hg
        exact h.owned g (List.mem_of_mem_erase hg)
      reg_nodup := h.reg_nodup.erase _ }
  have hroot1 : root_registration env ∉
      ({ w with inotify := w.inotify.erase (root_registration env) } : World).inotify := by
    intro hmem
    exact ((List.Nodup.mem_erase_iff h.reg_nodup).mp hmem).1 rfl
  obtain ⟨w1, hrun, hnil, _, haddr, hlinked, hroot⟩ :=
    storage_dir_cleanup_loop_ends env fuel _ hlinked1 hfuel
  have hreg : w1.inotify = [] := by
    apply List.eq_nil_iff_forall_not_mem.mpr
    intro g hg
    rcases hlinked.owned g hg with hg0 | ⟨r, hr, _⟩
    · exact hroot hroot1 (hg0 ▸ hg)
    · rw [hnil] at hr; cases hr
  simp only [storage_dir_cleanup, hinit, Bool.not_true, Bool.false_eq_true, if_false,
    unregister_root_eq h, hrun]
  rw [hreg]
  simp only at haddr
  rw [haddr]

theorem storage_dir_scan_linked (env : Env) (fs : Fs) (entries : List dirent) :
    ∀ w : World, Linked env w → Linked env (storage_dir_scan env fs w entries) := by
  induction entries with
  | nil => intro w h; exact h
  | cons d rest ih =>
    intro w h
    rw [storage_dir_scan_cons]
    split
    · exact ih _ (linked_append h fs d.d_name)
    · exact ih _ h

theorem storage_dir_scan_root_absent (env : Env) (fs : Fs) (entries : List dirent) :
    ∀ w : World, root_registration env ∉ w.inotify →
      root_registration env ∉ (storage_dir_scan env fs w entries).inotify := by
  induction entries with
  | nil => intro w h; exact h
  | cons d rest ih =>
    intro w h
    rw [storage_dir_scan_cons]
    split
    · apply ih
      rw [storage_subdir_append_eq]
      simp only [List.mem_cons, not_or]
      refine ⟨?_, h⟩
      intro heq
      have := congrArg Registration.callback heq
      simp [root_registration] at this
    · exact ih _ h

/-- The state a query leaves: the state after storage_dir_init when the mirror was not
initialized, the same state otherwise. -/
theorem get_services_state (env : Env) (dir : Option (List dirent)) (fs : Fs) (w : World) :
    (connman_storage_get_services env dir fs w).2
      = if w.storage.initialized then w else storage_dir_init env dir fs w := by
  unfold connman_storage_get_services
  cases hinit : w.storage.initialized
  · simp only [Bool.not_false, if_true, Bool.false_eq_true, if_false]
    split <;> rfl
  · simp [hinit]

theorem get_providers_state (env : Env) (dir : Option (List dirent)) (fs : Fs) (w : World) :
    (__connman_storage_get_providers env dir fs w).2
      = if w.storage.initialized then w else storage_dir_init env dir fs w := by
  unfold __connman_storage_get_providers
  cases hinit : w.storage.initialized
  · simp only [Bool.not_false, if_true, Bool.false_eq_true, if_false]
    split <;> rfl
  · simp [hinit]

theorem storage_dir_init_linked {env : Env} {w : World} (h : Linked env w) (hidle : Idle w)
    (dir : Option (List dirent)) (fs : Fs) :
    Linked env (storage_dir_init env dir fs w) ∧ Idle (storage_dir_init env dir fs w) := by
  cases hinit : w.storage.initialized
  · cases dir with
    | none =>
      have : storage_dir_init env none fs w = w := by simp [storage_dir_init, hinit]
      rw [this]; exact ⟨h, hidle⟩
    | some entries =>
      rw [storage_dir_init_opened env fs entries w hinit]
      have hs := storage_dir_scan_linked env fs entries w h
      have hroot := storage_dir_scan_root_absent env fs entries w
        (by rw [(hidle hinit).2]; exact List.not_mem_nil _)
      refine ⟨?_, ?_⟩
      · exact
          { addr_lt := hs.addr_lt
            addr_nodup := hs.addr_nodup
            watched := fun r hr => List.mem_cons_of_mem _ (hs.watched r hr)
            owned := by
              intro g hg
              rcases List.mem_cons.mp hg with hg0 | hg1
              · left; exact hg0
              · exact hs.owned g hg1
            reg_nodup := List.nodup_cons.mpr ⟨hroot, hs.reg_nodup⟩ }
      · intro hfalse
        simp [connman_inotify_register] at hfalse
  · have : storage_dir_init env dir fs w = w := by simp [storage_dir_init, hinit]
    rw [this]; exact ⟨h, hidle⟩

theorem set_has_settings_linked {env : Env} {w : World} (h : Linked env w) (hidle : Idle w)
    (p : Nat) (v : Bool) :
    Linked env (set_has_settings w p v) ∧ Idle (set_has_settings w p v) := by
  have hmem : ∀ x ∈ (set_has_settings w p v).storage.subdirs,
      ∃ r ∈ w.storage.subdirs, x.addr = r.addr ∧ x.name = r.name := by
    intro x hx
    simp only [set_has_settings, List.mem_map] at hx
    obtain ⟨r, hr, hxr⟩ := hx
    refine ⟨r, hr, ?_⟩
    split at hxr <;> subst hxr <;> exact ⟨rfl, rfl⟩
  have hmem2 : ∀ r ∈ w.storage.subdirs,
      ∃ x ∈ (set_has_settings w p v).storage.subdirs, x.addr = r.addr ∧ x.name = r.name := by
    intro r hr
    refine ⟨_, List.mem_map.mpr ⟨r, hr, rfl⟩, ?_⟩
    split <;> exact ⟨rfl, rfl⟩
  have haddrs : (set_has_settings w p v).storage.subdirs.map (fun r => r.addr)
      = w.storage.subdirs.map (fun r => r.addr) := by
    simp only [set_has_settings, List.map_map]
    apply List.map_congr_left
    intro r _
    simp only [Function.comp]
    split <;> rfl
  refine ⟨?_, ?_⟩
  · refine { addr_lt := ?_, addr_nodup := ?_, watched := ?_, owned := ?_, reg_nodup := ?_ }
    · intro x hx
      obtain ⟨r, hr, ha, _⟩ := hmem x hx
      have := h.addr_lt r hr
      show x.addr < w.next_addr
      omega
    · rw [haddrs]; exact h.addr_nodup
    · intro x hx
      obtain ⟨r, hr, ha, hn⟩ := hmem x hx
      have : subdir_registration env x = subdir_registration env r := by
        simp [subdir_registration, ha, hn]
      rw [this]
      exact h.watched r hr
    · intro g hg
      rcases h.owned g hg with hroot | ⟨r, hr, hgr⟩
      · left; exact hroot
      · right
        obtain ⟨x, hx, ha, hn⟩ := hmem2 r hr
        refine ⟨x, hx, ?_⟩
        rw [hgr]
        simp [subdir_registration, ha, hn]
    · exact h.reg_nodup
  · intro hinit
    have := hidle hinit
    simp [set_has_settings, this.1, this.2]

theorem storage_inotify_subdir_cb_cases (env : Env) (fs : Fs) (w : World)
    (event : inotify_event) (p : Nat) :
    storage_inotify_subdir_cb env fs w event p = w
      ∨ ∃ v, storage_inotify_subdir_cb env fs w event p = set_has_settings w p v := by
  unfold storage_inotify_subdir_cb
  split
  · left; rfl
  · split
    · left; rfl
    · split
      · split
        · right; exact ⟨false, rfl⟩
        · left; rfl
      · split
        · split
          · simp only
            split
            · split
              · right; exact ⟨true, rfl⟩
              · left; rfl
            · left; rfl
          · left; rfl
        · left; rfl

/-- The teardown loop, whenever it ends, ends with no record. -/
theorem storage_dir_cleanup_loop_spec (env : Env) :
    ∀ (fuel : Nat) (w w1 : World), Linked env w →
      storage_dir_cleanup_loop env fuel w = some w1 →
        w1.storage.subdirs = [] ∧ w1.next_addr = w.next_addr ∧ Linked env w1
          ∧ (root_registration env ∉ w.inotify → root_registration env ∉ w1.inotify) := by
  intro fuel
  induction fuel with
  | zero =>
    intro w w1 h hrun
    simp only [storage_dir_cleanup_loop] at hrun
    split at hrun
    · rename_i hempty
      injection hrun with hrun
      subst hrun
      exact ⟨List.isEmpty_iff.mp hempty, rfl, h, id⟩
    · cases hrun
  | succ fuel ih =>
    intro w w1 h hrun
    cases hs : w.storage.subdirs with
    | nil =>
      simp only [storage_dir_cleanup_loop, hs] at hrun
      injection hrun with hrun
      subst hrun
      exact ⟨hs, rfl, h, id⟩
    | cons r rest =>
      have hr : r ∈ w.storage.subdirs := by rw [hs]; exact List.mem_cons_self _ _
      simp only [storage_dir_cleanup_loop, hs] at hrun
      obtain ⟨hnil, haddr, hlinked, hroot⟩ := ih _ w1 (linked_unregister h hr) hrun
      refine ⟨hnil, ?_, hlinked, ?_⟩
      · rw [haddr, storage_subdir_unregister_eq h hr]
      · intro hno
        exact hroot (storage_subdir_unregister_root_absent h hr hno)

/-- Teardown of a linked mirror, whenever it returns, leaves a linked idle mirror without
records. -/
theorem storage_dir_cleanup_spec {env : Env} {w w1 : World} (h : Linked env w)
    (hidle : Idle w) (fuel : Nat) (hrun : storage_dir_cleanup env fuel w = some w1) :
    Linked env w1 ∧ Idle w1 ∧ w1.storage.subdirs = [] := by
  cases hinit : w.storage.initialized
  · simp only [storage_dir_cleanup, hinit, Bool.not_false, if_true] at hrun
    injection hrun with hrun
    subst hrun
    exact ⟨h, hidle, (hidle hinit).1⟩
  · simp only [storage_dir_cleanup, hinit, Bool.not_true, Bool.false_eq_true, if_false,
      unregister_root_eq h] at hrun
    have hlinked1 : Linked env
        { w with inotify := w.inotify.erase (root_registration env) } :=
      { addr_lt := h.addr_lt
        addr_nodup := h.addr_nodup
        watched := by
          intro r hr
          exact (List.mem_erase_of_ne (subdir_registration_ne_root env r)).mpr
            (h.watched r hr)
        owned := by
          intro g hg
          exact h.owned g (List.mem_of_mem_erase hg)
        reg_nodup := h.reg_nodup.erase _ }
    have hroot1 : root_registration env ∉
        ({ w with inotify := w.inotify.erase (root_registration env) } : World).inotify := by
      intro hmem
      exact ((List.Nodup.mem_erase_iff h.reg_nodup).mp hmem).1 rfl
    split at hrun
    · cases hrun
    · rename_i w2 hloop
      obtain ⟨hnil, _, hlinked, hroot⟩ :=
        storage_dir_cleanup_loop_spec env fuel _ w2 hlinked1 hloop
      have hreg : w2.inotify = [] := by
        apply List.eq_nil_iff_forall_not_mem.mpr
        intro g hg
        rcases hlinked.owned g hg with hg0 | ⟨r, hr, _⟩
        · exact hroot hroot1 (hg0 ▸ hg)
        · rw [hnil] at hr; cases hr
      injection hrun with hrun
      subst hrun
      refine ⟨?_, ?_, rfl⟩
      · exact
          { addr_lt := by intro r hr; cases hr
            addr_nodup := List.nodup_nil
            watched := by intro r hr; cases hr
            owned := by intro g hg; rw [hreg] at hg; cases hg
            reg_nodup := by rw [hreg]; exact List.nodup_nil }
      · intro _
        exact ⟨rfl, hreg⟩

/-- What the root callback does to the state, by the kind of event. -/
theorem storage_inotify_cb_cases (env : Env) (fs : Fs) (fuel : Nat) (w : World)
    (event : inotify_event) :
    (mask_has event.mask IN_DELETE_SELF = true
        ∧ storage_inotify_cb env fs fuel w event = storage_dir_cleanup env fuel w)
      ∨ (root_event_appends event = false
          ∧ storage_inotify_cb env fs fuel w event = some w)
      ∨ (root_event_appends event = false
          ∧ ∃ pos ∈ w.storage.subdirs,
              storage_inotify_cb env fs fuel w event
                = some (storage_subdir_unregister env w pos))
      ∨ (root_event_appends event = true
          ∧ storage_inotify_cb env fs fuel w event
              = some (storage_subdir_append env fs w event.name)) := by
  unfold storage_inotify_cb root_event_appends
  by_cases h1 : mask_has event.mask IN_DELETE_SELF = true
  · left; simp [h1]
  · right
    by_cases h2 : mask_has event.mask IN_ISDIR = true
    · by_cases h3 : (mask_has event.mask IN_DELETE || mask_has event.mask IN_MOVED_FROM) = true
      · simp only [h1, h2, h3, Bool.false_eq_true, if_false, Bool.not_true, if_true]
        cases hf : g_list_find_custom w.storage.subdirs
            { addr := 0, name := event.name, has_settings := false } with
        | none => left; simp
        | some pos =>
          right; left
          refine ⟨by simp, pos, List.mem_of_find?_eq_some hf, rfl⟩
      · by_cases h4 : (mask_has event.mask IN_CREATE || mask_has event.mask IN_MOVED_TO) = true
        · right; right
          simp [h1, h2, h3, h4]
        · left
          simp [h1, h2, h3, h4]
    · left
      simp [h1, h2]

theorem root_event_enabled_initialized {env : Env} {w : World} (hidle : Idle w)
    (fs : Fs) (fuel : Nat) (event : inotify_event)
    (hen : (Action.root_event fs fuel event).enabled env w = true) :
    w.storage.initialized = true := by
  cases hinit : w.storage.initialized
  · simp [Action.enabled, (hidle hinit).2] at hen
  · rfl

theorem idle_of_initialized {w : World} (h : w.storage.initialized = true) : Idle w := by
  intro hfalse
  rw [h] at hfalse
  cases hfalse

/-- Every action keeps the mirror linked and idle-when-uninitialized. -/
theorem action_linked {env : Env} {w w1 : World} (a : Action) (h : Linked env w)
    (hidle : Idle w) (hen : a.enabled env w = true) (hrun : a.run env w = some w1) :
    Linked env w1 ∧ Idle w1 := by
  cases a with
  | get_services dir fs =>
    simp only [Action.run, get_services_state, Option.some.injEq] at hrun
    subst hrun
    split
    · exact ⟨h, hidle⟩
    · exact storage_dir_init_linked h hidle dir fs
  | get_providers dir fs =>
    simp only [Action.run, get_providers_state, Option.some.injEq] at hrun
    subst hrun
    split
    · exact ⟨h, hidle⟩
    · exact storage_dir_init_linked h hidle dir fs
  | root_event fs fuel event =>
    have hinit := root_event_enabled_initialized hidle fs fuel event hen
    simp only [Action.run] at hrun
    rcases storage_inotify_cb_cases env fs fuel w event with
      ⟨_, hc⟩ | ⟨_, hc⟩ | ⟨_, pos, hpos, hc⟩ | ⟨_, hc⟩
    · rw [hc] at hrun
      have := storage_dir_cleanup_spec h hidle fuel hrun
      exact ⟨this.1, this.2.1⟩
    · rw [hc] at hrun; injection hrun with hrun; subst hrun
      exact ⟨h, hidle⟩
    · rw [hc] at hrun; injection hrun with hrun; subst hrun
      refine ⟨linked_unregister h hpos, idle_of_initialized ?_⟩
      rw [storage_subdir_unregister_eq h hpos]; exact hinit
    · rw [hc] at hrun; injection hrun with hrun; subst hrun
      refine ⟨linked_append h fs event.name, idle_of_initialized ?_⟩
      rw [storage_subdir_append_eq]; exact hinit
  | subdir_event fs event p =>
    simp only [Action.run, Option.some.injEq] at hrun
    subst hrun
    rcases storage_inotify_subdir_cb_cases env fs w event p with hc | ⟨v, hc⟩
    · rw [hc]; exact ⟨h, hidle⟩
    · rw [hc]; exact set_has_settings_linked h hidle p v
  | cleanup fuel =>
    simp only [Action.run, __connman_storage_cleanup] at hrun
    have := storage_dir_cleanup_spec h hidle fuel hrun
    exact ⟨this.1, this.2.1⟩

/-- Induction over runs. -/
theorem run_induction (env : Env) (guard : World → Action → Bool) (P : World → Prop)
    (hstep : ∀ (w w1 : World) (a : Action), P w → a.enabled env w = true → guard w a = true →
      a.run env w = some w1 → P w1) :
    ∀ (actions : List Action) (w w1 : World), P w → run env guard w actions = some w1 →
      P w1 := by
  intro actions
  induction actions with
  | nil =>
    intro w w1 hP hrun
    simp only [run, Option.some.injEq] at hrun
    subst hrun; exact hP
  | cons a rest ih =>
    intro w w1 hP hrun
    simp only [run] at hrun
    split at hrun
    · rename_i hg
      simp only [Bool.and_eq_true] at hg
      split at hrun
      · rename_i w2 ha
        exact ih w2 w1 (hstep w w2 a hP hg.1 hg.2 ha) hrun
      · cases hrun
    · cases hrun

theorem idle_start : Idle World.start := by
  intro _
  exact ⟨rfl, rfl⟩

/-- Every state reached by a run from process start is linked and idle-when-uninitialized. -/
theorem run_linked (env : Env) (guard : World → Action → Bool) (actions : List Action)
    (w : World) (hrun : run env guard World.start actions = some w) :
    Linked env w ∧ Idle w :=
  run_induction env guard (fun w => Linked env w ∧ Idle w)
    (fun _ _ a hP hen _ ha => action_linked a hP.1 hP.2 hen ha)
    actions World.start w ⟨linked_start env, idle_start⟩ hrun

/-! ## Teardown -/

/-- C4: teardown completeness.  In every initialized state reached by a run from process
start, with any number of records, a root event carrying IN_DELETE_SELF and a call of
__connman_storage_cleanup both return (the loop needs at most as many iterations as there
are records) and leave the mirror with no record, no registration and initialized = false.
A following enumeration query on a root that can be opened runs storage_dir_init again: the
mirror is initialized once more and holds one record per scanned entry of the root. -/
theorem teardown_complete (env : Env) (actions : List Action) (w : World)
    (hreach : run env any_action World.start actions = some w)
    (hinit : w.storage.initialized = true)
    (fs : Fs) (event : inotify_event) (hself : mask_has event.mask IN_DELETE_SELF = true)
    (fuel : Nat) (hfuel : w.storage.subdirs.length ≤ fuel) :
    storage_inotify_cb env fs fuel w event
        = some { storage := { initialized := false, subdirs := [] }, inotify := [],
                 next_addr := w.next_addr }
      ∧ __connman_storage_cleanup env fuel w
        = some { storage := { initialized := false, subdirs := [] }, inotify := [],
                 next_addr := w.next_addr }
      ∧ ∀ (entries : List dirent) (fs2 : Fs),
          ((connman_storage_get_services env (some entries) fs2
              { storage := { initialized := false, subdirs := [] }, inotify := [],
                next_addr := w.next_addr }).2.storage.initialized = true
            ∧ (connman_storage_get_services env (some entries) fs2
                { storage := { initialized := false, subdirs := [] }, inotify := [],
                  next_addr := w.next_addr }).2.storage.subdirs.map (fun r => r.name)
              = ((entries.filter scanned).map (fun d => d.d_name)).reverse)
          ∧ ((__connman_storage_get_providers env (some entries) fs2
              { storage := { initialized := false, subdirs := [] }, inotify := [],
                next_addr := w.next_addr }).2.storage.initialized = true
            ∧ (__connman_storage_get_providers env (some entries) fs2
                { storage := { initialized := false, subdirs := [] }, inotify := [],
                  next_addr := w.next_addr }).2.storage.subdirs.map (fun r => r.name)
              = ((entries.filter scanned).map (fun d => d.d_name)).reverse) := by
  have hlinked := (run_linked env any_action actions w hreach).1
  have hclean := storage_dir_cleanup_ends hlinked hinit fuel hfuel
  refine ⟨?_, ?_, ?_⟩
  · simp only [storage_inotify_cb, hself, if_true]
    exact hclean
  · exact hclean
  · intro entries fs2
    exact query_initializes env fs2 entries _ rfl rfl

/-- Witness for C4: teardown of the mirror initialized with two records. -/
theorem teardown_complete_witness :
    run env0 any_action World.start [Action.get_services (some entries_mixed) fs_wifi]
        = some w_after_init
      ∧ w_after_init.storage.subdirs.length = 2
      ∧ storage_inotify_cb env0 fs_root 2 w_after_init event_delete_self
        = some { storage := { initialized := false, subdirs := [] }, inotify := [],
                 next_addr := 3 } :=
  ⟨by decide, by decide,
   (teardown_complete env0 [Action.get_services (some entries_mixed) fs_wifi] w_after_init
      (by decide) (by decide) fs_root event_delete_self (by decide) 2 (by decide)).1⟩

/-! ## Name uniqueness -/

theorem set_has_settings_names (w : World) (p : Nat) (v : Bool) :
    (set_has_settings w p v).storage.subdirs.map (fun r => r.name)
      = w.storage.subdirs.map (fun r => r.name) := by
  simp only [set_has_settings, List.map_map]
  apply List.map_congr_left
  intro r _
  simp only [Function.comp]
  split <;> rfl

/-- Under the side condition `names_fresh`, every action keeps record names distinct. -/
theorem action_names_nodup {env : Env} {w w1 : World} (a : Action) (h : Linked env w)
    (hidle : Idle w) (hn : (w.storage.subdirs.map (fun r => r.name)).Nodup)
    (hen : a.enabled env w = true) (hg : names_fresh w a = true)
    (hrun : a.run env w = some w1) :
    (w1.storage.subdirs.map (fun r => r.name)).Nodup := by
  have hquery : ∀ (dir : Option (List dirent)) (fs : Fs),
      (match dir with
        | some entries => w.storage.initialized
            || decide ((entries.filter scanned).map (fun d => d.d_name)).Nodup
        | none => true) = true →
      ((if w.storage.initialized then w else storage_dir_init env dir fs w).storage.subdirs.map
        (fun r => r.name)).Nodup := by
    intro dir fs hfresh
    cases hinit : w.storage.initialized
    · simp only [Bool.false_eq_true, if_false]
      cases dir with
      | none =>
        have : storage_dir_init env none fs w = w := by simp [storage_dir_init, hinit]
        rw [this]; exact hn
      | some entries =>
        simp only [hinit, Bool.false_or, decide_eq_true_eq] at hfresh
        rw [storage_dir_init_opened env fs entries w hinit]
        have hnames := storage_dir_scan_names env fs entries w
        rw [(hidle hinit).1] at hnames
        simp only [List.map_nil, List.append_nil] at hnames
        simp only [connman_inotify_register, hnames]
        exact List.nodup_reverse.mpr hfresh
    · simp only [if_true]; exact hn
  cases a with
  | get_services dir fs =>
    simp only [Action.run, get_services_state, Option.some.injEq] at hrun
    subst hrun
    apply hquery dir fs
    cases dir with
    | none => rfl
    | some entries => simpa [names_fresh] using hg
  | get_providers dir fs =>
    simp only [Action.run, get_providers_state, Option.some.injEq] at hrun
    subst hrun
    apply hquery dir fs
    cases dir with
    | none => rfl
    | some entries => simpa [names_fresh] using hg
  | root_event fs fuel event =>
    simp only [Action.run] at hrun
    rcases storage_inotify_cb_cases env fs fuel w event with
      ⟨_, hc⟩ | ⟨_, hc⟩ | ⟨_, pos, hpos, hc⟩ | ⟨happ, hc⟩
    · rw [hc] at hrun
      rw [(storage_dir_cleanup_spec h hidle fuel hrun).2.2]
      exact List.nodup_nil
    · rw [hc] at hrun; injection hrun with hrun; subst hrun
      exact hn
    · rw [hc] at hrun; injection hrun with hrun; subst hrun
      rw [storage_subdir_unregister_eq h hpos]
      exact hn.sublist ((List.erase_sublist pos w.storage.subdirs).map _)
    · rw [hc] at hrun; injection hrun with hrun; subst hrun
      rw [storage_subdir_append_eq]
      simp only [List.map_cons, List.nodup_cons]
      refine ⟨?_, hn⟩
      intro hmem
      obtain ⟨r, hr, hname⟩ := List.mem_map.mp hmem
      simp only [names_fresh, happ, Bool.not_true, Bool.false_or, Bool.not_eq_true',
        List.any_eq_false, beq_iff_eq] at hg
      exact hg r hr hname
  | subdir_event fs event p =>
    simp only [Action.run, Option.some.injEq] at hrun
    subst hrun
    rcases storage_inotify_subdir_cb_cases env fs w event p with hc | ⟨v, hc⟩
    · rw [hc]; exact hn
    · rw [hc, set_has_settings_names]; exact hn
  | cleanup fuel =>
    simp only [Action.run, __connman_storage_cleanup] at hrun
    rw [(storage_dir_cleanup_spec h hidle fuel hrun).2.2]
    exact List.nodup_nil

/-- C3, as stated, fails: after the first query on an empty root, a directory-created event
and a directory-renamed-in event for the same name `a` leave two records named `a`. -/
theorem duplicate_names_reachable :
    (run env0 any_action World.start
        [ Action.get_services (some entries_empty) fs_root,
          Action.root_event fs_a 0 event_mkdir_a,
          Action.root_event fs_a 0 event_moved_to_a ]).map
      (fun w => w.storage.subdirs.map (fun r => r.name)) = some ["a", "a"] := by
  decide

/-- C3, amended: in every state reached from process start by queries, root events,
per-subdirectory events and teardown in which each scan reads no name twice among the
entries it appends and each root event that appends a record names a directory that has no
record at that moment, no two records have the same name. -/
theorem names_unique_when_fresh (env : Env) (actions : List Action) (w : World)
    (hreach : run env names_fresh World.start actions = some w) :
    (w.storage.subdirs.map (fun r => r.name)).Nodup :=
  (run_induction env names_fresh
    (fun w => (Linked env w ∧ Idle w) ∧ (w.storage.subdirs.map (fun r => r.name)).Nodup)
    (fun _ _ a hP hen hg ha =>
      ⟨action_linked a hP.1.1 hP.1.2 hen ha, action_names_nodup a hP.1.1 hP.1.2 hP.2 hen hg ha⟩)
    actions World.start w ⟨⟨linked_start env, idle_start⟩, List.nodup_nil⟩ hreach).2

/-- Witness for the amended C3: a query and the creation of a directory with a new name. -/
theorem names_unique_when_fresh_witness :
    run env0 names_fresh World.start
        [ Action.get_services (some entries_mixed) fs_wifi,
          Action.root_event fs_a 0 event_mkdir_a ]
      = some (storage_subdir_append env0 fs_a w_after_init "a")
    ∧ ((storage_subdir_append env0 fs_a w_after_init "a").storage.subdirs.map
        (fun r => r.name)).Nodup :=
  ⟨by decide,
   names_unique_when_fresh env0
     [ Action.get_services (some entries_mixed) fs_wifi,
       Action.root_event fs_a 0 event_mkdir_a ]
     (storage_subdir_append env0 fs_a w_after_init "a") (by decide)⟩

/-! ## Classification of directory names -/

/-- The prefix test of both classification predicates succeeds exactly on the names that
start with `provider_`. -/
theorem strncmp_provider_iff (n : String) :
    strncmp_eq n "provider_" 9 = true ↔ ∃ rest : String, n = "provider_" ++ rest := by
  have hP : ("provider_" : String).data.take 9 = ("provider_" : String).data := by decide
  have hlen : ("provider_" : String).data.length = 9 := by decide
  simp only [strncmp_eq, hP, beq_iff_eq]
  constructor
  · intro h
    have h2 : List.take 9 n.data = ("provider_" : String).data := by rw [h]
    refine ⟨String.mk (n.data.drop 9), ?_⟩
    apply String.ext
    rw [String.data_append, ← h2]
    exact (List.take_append_drop 9 n.data).symm
  · rintro ⟨rest, rfl⟩
    have h2 : List.take 9 ("provider_" ++ rest).data = ("provider_" : String).data := by
      rw [String.data_append, ← hlen, List.take_left]
    rw [h2]

/-- C13: is_provider_dir_name holds exactly for the names that start with `provider_`;
is_service_dir_name holds exactly for the names that do not start with `provider_` and for
which CONNMAN_PATH/service/name passes the external path-syntax predicate; so
is_service_dir_name is false on every name starting with `provider_`, and no name
satisfies both predicates. -/
theorem classification_partition (env : Env) (n : String) :
    (is_provider_dir_name n = true ↔ ∃ rest : String, n = "provider_" ++ rest)
      ∧ (is_service_dir_name env n = true
          ↔ (¬ ∃ rest : String, n = "provider_" ++ rest)
            ∧ env.dbus_validate_path (env.CONNMAN_PATH ++ "/service/" ++ n) = true)
      ∧ ((∃ rest : String, n = "provider_" ++ rest) → is_service_dir_name env n = false)
      ∧ ¬ (is_provider_dir_name n = true ∧ is_service_dir_name env n = true) := by
  have hprov : is_provider_dir_name n = true ↔ ∃ rest : String, n = "provider_" ++ rest := by
    rw [← strncmp_provider_iff]
    unfold is_provider_dir_name
    cases strncmp_eq n "provider_" 9 <;> simp
  have hserv : is_service_dir_name env n = true
      ↔ (¬ ∃ rest : String, n = "provider_" ++ rest)
        ∧ env.dbus_validate_path (env.CONNMAN_PATH ++ "/service/" ++ n) = true := by
    rw [← strncmp_provider_iff]
    unfold is_service_dir_name service_id_is_valid
    cases h1 : strncmp_eq n "provider_" 9 <;>
      cases h2 : env.dbus_validate_path (env.CONNMAN_PATH ++ "/service/" ++ n) <;>
        simp [h1, h2]
  refine ⟨hprov, hserv, ?_, ?_⟩
  · intro hstart
    cases hs : is_service_dir_name env n
    · rfl
    · exact absurd hstart (hserv.mp hs).1
  · rintro ⟨hp, hs⟩
    exact (hserv.mp hs).1 (hprov.mp hp)

/-- Witness for C13: a provider name and a service name. -/
theorem classification_partition_witness :
    is_provider_dir_name "provider_vpn1" = true
      ∧ is_service_dir_name env0 "provider_vpn1" = false
      ∧ is_service_dir_name env0 "wifi_abcdef" = true :=
  ⟨(classification_partition env0 "provider_vpn1").1.mpr ⟨"vpn1", by decide⟩,
   (classification_partition env0 "provider_vpn1").2.2.1 ⟨"vpn1", by decide⟩,
   (classification_partition env0 "wifi_abcdef").2.1.mpr
     ⟨fun h => absurd ((classification_partition env0 "wifi_abcdef").1.mpr h) (by decide),
      by decide⟩⟩

/-! ## First-time initialization, failure case -/

/-- C15: for every mirror that is not initialized, when the storage root cannot be opened
both enumeration queries return NULL and leave the whole state as it was: initialized
stays false, no record is added and no registration is made. -/
theorem init_failure_unchanged (env : Env) (fs : Fs) (w : World)
    (hinit : w.storage.initialized = false) :
    connman_storage_get_services env none fs w = (none, w)
      ∧ __connman_storage_get_providers env none fs w = (none, w) := by
  constructor
  · simp [connman_storage_get_services, storage_dir_init, hinit]
  · simp [__connman_storage_get_providers, storage_dir_init, hinit]

/-- Witness for C15: the first query at process start with no storage root. -/
theorem init_failure_unchanged_witness :
    World.start.storage.initialized = false
      ∧ connman_storage_get_services env0 none [] World.start = (none, World.start)
      ∧ __connman_storage_get_providers env0 none [] World.start = (none, World.start) :=
  ⟨rfl, (init_failure_unchanged env0 [] World.start rfl).1,
   (init_failure_unchanged env0 [] World.start rfl).2⟩

/-! ## Failing steps of the service removal -/

theorem remove_file_wrong_type (env : Env) (fs : Fs) (service_id file : String)
    (h : absent_or_regular fs (env.STORAGEDIR ++ "/" ++ service_id ++ "/" ++ file) = false) :
    remove_file env fs service_id file = (false, fs) := by
  rcases hs : stat fs (env.STORAGEDIR ++ "/" ++ service_id ++ "/" ++ file) with _ | n
  · simp [absent_or_regular, hs] at h
  · cases n <;> simp [absent_or_regular, hs, S_ISREG] at h <;>
      simp [remove_file, g_file_test, hs, S_ISREG]

theorem remove_dir_wrong_type (env : Env) (fs : Fs) (service_id : String)
    (h : absent_or_dir fs (env.STORAGEDIR ++ "/" ++ service_id) = false) :
    remove_dir env fs service_id = (false, fs) := by
  rcases hs : stat fs (env.STORAGEDIR ++ "/" ++ service_id) with _ | n
  · simp [absent_or_dir, hs] at h
  · cases n <;> simp [absent_or_dir, hs, S_ISDIR] at h <;>
      simp [remove_dir, g_file_test, hs, S_ISDIR]

/-- What remove_file leaves at its own path when it returns true: nothing, unless unlink
failed. -/
theorem remove_file_true_leaves (env : Env) (fs : Fs) (service_id file : String)
    (h : (remove_file env fs service_id file).1 = true) :
    stat (remove_file env fs service_id file).2
        (env.STORAGEDIR ++ "/" ++ service_id ++ "/" ++ file) = none
      ∨ ((∃ content, stat (remove_file env fs service_id file).2
              (env.STORAGEDIR ++ "/" ++ service_id ++ "/" ++ file) = some (Inode.reg content))
          ∧ ∃ errno, unlink env fs (env.STORAGEDIR ++ "/" ++ service_id ++ "/" ++ file)
              = .error errno) := by
  rcases hs : stat fs (env.STORAGEDIR ++ "/" ++ service_id ++ "/" ++ file) with _ | n
  · left
    simp [remove_file, g_file_test, hs]
  · cases n with
    | reg content =>
      cases hr : env.unlink_refused fs (env.STORAGEDIR ++ "/" ++ service_id ++ "/" ++ file)
      · left
        simp [remove_file, g_file_test, unlink, after, hs, hr, S_ISREG, stat_fs_erase]
      · right
        simp [remove_file, g_file_test, unlink, after, hs, hr, S_ISREG]
    | dir => simp [remove_file, g_file_test, hs, S_ISREG] at h
    | other => simp [remove_file, g_file_test, hs, S_ISREG] at h

/-- What remove_dir leaves at its own path when it returns true: nothing, unless rmdir
failed, in which case the directory is still there. -/
theorem remove_dir_true_leaves (env : Env) (fs : Fs) (service_id : String)
    (h : (remove_dir env fs service_id).1 = true) :
    stat (remove_dir env fs service_id).2 (env.STORAGEDIR ++ "/" ++ service_id) = none
      ∨ (stat (remove_dir env fs service_id).2 (env.STORAGEDIR ++ "/" ++ service_id)
            = some Inode.dir
          ∧ ∃ errno, rmdir env fs (env.STORAGEDIR ++ "/" ++ service_id) = .error errno) := by
  rcases hs : stat fs (env.STORAGEDIR ++ "/" ++ service_id) with _ | n
  · left
    simp [remove_dir, g_file_test, hs]
  · cases n
    · simp [remove_dir, g_file_test, hs, S_ISDIR] at h
    · cases hr : env.rmdir_refused fs (env.STORAGEDIR ++ "/" ++ service_id)
      · by_cases hc : fs_has_child fs (env.STORAGEDIR ++ "/" ++ service_id) = true
        · right
          simp [remove_dir, g_file_test, rmdir, after, hs, hr, S_ISDIR, hc]
        · left
          simp [remove_dir, g_file_test, rmdir, after, hs, hr, S_ISDIR, hc, stat_fs_erase]
      · right
        simp [remove_dir, g_file_test, rmdir, after, hs, hr, S_ISDIR]
    · simp [remove_dir, g_file_test, hs, S_ISDIR] at h

/-- C11, as stated, fails: with another file left in STORAGEDIR/foo, rmdir fails with
ENOTEMPTY, yet __connman_storage_remove_service returns true and the directory is still
there. -/
theorem remove_service_true_directory_remains :
    (match rmdir env0
          (remove_file env0 (remove_file env0 fs_foo_extra "foo" SETTINGS).2 "foo" "data").2
          "/var/lib/connman/foo" with
        | .error errno => errno
        | .ok _ => 0) = ENOTEMPTY
      ∧ (__connman_storage_remove_service env0 fs_foo_extra "foo").1 = true
      ∧ stat (__connman_storage_remove_service env0 fs_foo_extra "foo").2
          "/var/lib/connman/foo" = some Inode.dir := by
  decide

/-- C11, amended: a step whose target exists with the wrong type (settings or data not a
regular file, STORAGEDIR/id not a directory) ends the operation with false and no later
step is performed.  A failure of unlink or rmdir itself is not examined: the return value
is true exactly when settings and data are each absent or a regular file and STORAGEDIR/id
is absent or a directory, whatever the system calls return.  So a true return does not
say that anything was removed: after it, settings, data and STORAGEDIR/id are each gone
unless the unlink or rmdir called on them failed (for any reason: another entry in the
directory, a read-only file system, missing permission), in which case they are still
there. -/
theorem remove_service_abort_on_wrong_type (env : Env) (fs : Fs) (service_id : String) :
    (absent_or_regular fs (env.STORAGEDIR ++ "/" ++ service_id ++ "/" ++ SETTINGS) = false
        → __connman_storage_remove_service env fs service_id = (false, fs))
      ∧ (absent_or_regular fs (env.STORAGEDIR ++ "/" ++ service_id ++ "/" ++ SETTINGS) = true
        → absent_or_regular fs (env.STORAGEDIR ++ "/" ++ service_id ++ "/" ++ "data") = false
        → __connman_storage_remove_service env fs service_id
            = (false, (remove_file env fs service_id SETTINGS).2))
      ∧ (absent_or_regular fs (env.STORAGEDIR ++ "/" ++ service_id ++ "/" ++ SETTINGS) = true
        → absent_or_regular fs (env.STORAGEDIR ++ "/" ++ service_id ++ "/" ++ "data") = true
        → absent_or_dir fs (env.STORAGEDIR ++ "/" ++ service_id) = false
        → __connman_storage_remove_service env fs service_id
            = (false,
                (remove_file env (remove_file env fs service_id SETTINGS).2 service_id
                  "data").2))
      ∧ ((__connman_storage_remove_service env fs service_id).1
          = (absent_or_regular fs (env.STORAGEDIR ++ "/" ++ service_id ++ "/" ++ SETTINGS)
            && absent_or_regular fs (env.STORAGEDIR ++ "/" ++ service_id ++ "/" ++ "data")
            && absent_or_dir fs (env.STORAGEDIR ++ "/" ++ service_id)))
      ∧ ((__connman_storage_remove_service env fs service_id).1 = true
        → (stat (__connman_storage_remove_service env fs service_id).2
                (env.STORAGEDIR ++ "/" ++ service_id ++ "/" ++ SETTINGS) = none
            ∨ ((∃ content, stat (__connman_storage_remove_service env fs service_id).2
                    (env.STORAGEDIR ++ "/" ++ service_id ++ "/" ++ SETTINGS)
                  = some (Inode.reg content))
              ∧ ∃ errno, unlink env fs
                    (env.STORAGEDIR ++ "/" ++ service_id ++ "/" ++ SETTINGS) = .error errno))
          ∧ (stat (__connman_storage_remove_service env fs service_id).2
                (env.STORAGEDIR ++ "/" ++ service_id ++ "/" ++ "data") = none
            ∨ ((∃ content, stat (__connman_storage_remove_service env fs service_id).2
                    (env.STORAGEDIR ++ "/" ++ service_id ++ "/" ++ "data")
                  = some (Inode.reg content))
              ∧ ∃ errno, unlink env (remove_file env fs service_id SETTINGS).2
                    (env.STORAGEDIR ++ "/" ++ service_id ++ "/" ++ "data") = .error errno))
          ∧ (stat (__connman_storage_remove_service env fs service_id).2
                (env.STORAGEDIR ++ "/" ++ service_id) = none
            ∨ (stat (__connman_storage_remove_service env fs service_id).2
                  (env.STORAGEDIR ++ "/" ++ service_id) = some Inode.dir
              ∧ ∃ errno, rmdir env
                    (remove_file env (remove_file env fs service_id SETTINGS).2 service_id
                      "data").2
                    (env.STORAGEDIR ++ "/" ++ service_id) = .error errno))) := by
  have hsteps := remove_service_steps env fs service_id
  have h2 : absent_or_regular (remove_file env fs service_id SETTINGS).2
      (env.STORAGEDIR ++ "/" ++ service_id ++ "/" ++ "data")
      = absent_or_regular fs (env.STORAGEDIR ++ "/" ++ service_id ++ "/" ++ "data") := by
    unfold absent_or_regular
    rw [remove_file_stat_other _ _ _ _ _ (settings_path_ne_data_path _)]
  have h3 : absent_or_dir
      (remove_file env (remove_file env fs service_id SETTINGS).2 service_id "data").2
      (env.STORAGEDIR ++ "/" ++ service_id)
      = absent_or_dir fs (env.STORAGEDIR ++ "/" ++ service_id) := by
    unfold absent_or_dir
    rw [remove_file_stat_other _ _ _ _ _ (file_path_ne_dir_path _ _),
      remove_file_stat_other _ _ _ _ _ (file_path_ne_dir_path _ _)]
  refine ⟨?_, ?_, ?_, remove_service_ret env fs service_id, ?_⟩
  · intro h1
    rw [hsteps, remove_file_wrong_type env fs service_id SETTINGS h1]
    simp
  · intro h1 hd
    have hb1 : (remove_file env fs service_id SETTINGS).1 = true := by
      rw [remove_file_ret]; exact h1
    rw [← h2] at hd
    rw [hsteps, remove_file_wrong_type env _ service_id "data" hd]
    simp [hb1]
  · intro h1 hd hdir
    have hb1 : (remove_file env fs service_id SETTINGS).1 = true := by
      rw [remove_file_ret]; exact h1
    have hb2 : (remove_file env (remove_file env fs service_id SETTINGS).2 service_id
        "data").1 = true := by
      rw [remove_file_ret, h2]; exact hd
    rw [← h3] at hdir
    rw [hsteps, remove_dir_wrong_type env _ service_id hdir]
    simp [hb1, hb2]
  · intro h
    cases hb1 : (remove_file env fs service_id SETTINGS).1
    · rw [hsteps] at h; simp [hb1] at h
    · simp only [hb1, if_true] at hsteps
      cases hb2 : (remove_file env (remove_file env fs service_id SETTINGS).2 service_id
          "data").1
      · rw [hsteps] at h; simp [hb2] at h
      · simp only [hb2, if_true] at hsteps
        rw [hsteps] at h ⊢
        have e1 := remove_file_true_leaves env fs service_id SETTINGS hb1
        have e2 := remove_file_true_leaves env _ service_id "data" hb2
        refine ⟨?_, ?_, remove_dir_true_leaves env _ service_id h⟩
        · rw [remove_dir_stat_other _ _ _ _ (Ne.symm (file_path_ne_dir_path _ _)),
            remove_file_stat_other _ _ _ _ _ (Ne.symm (settings_path_ne_data_path _))]
          exact e1
        · rw [remove_dir_stat_other _ _ _ _ (Ne.symm (file_path_ne_dir_path _ _))]
          exact e2

/-- Witness for the amended C11: a settings path that is a directory stops the operation
at once; on a read-only file system the operation returns true for the empty service
directory `a` and the directory is still there, empty; with nothing refused a service
directory holding only its settings file is removed completely. -/
theorem remove_service_abort_on_wrong_type_witness :
    __connman_storage_remove_service env0 fs_settings_dir "foo" = (false, fs_settings_dir)
      ∧ (__connman_storage_remove_service env_readonly fs_a "a").1 = true
      ∧ (__connman_storage_remove_service env_readonly fs_a "a").2 = fs_a
      ∧ stat fs_a "/var/lib/connman/a" = some Inode.dir
      ∧ fs_has_child fs_a "/var/lib/connman/a" = false
      ∧ __connman_storage_remove_service env0 fs_wifi "wifi_abcdef" = (true, fs_root) :=
  ⟨(remove_service_abort_on_wrong_type env0 fs_settings_dir "foo").1 (by decide),
   (remove_service_abort_on_wrong_type env_readonly fs_a "a").2.2.2.1.trans (by decide),
   by decide, by decide, by decide, by decide⟩

/-! ## Removal of a provider directory -/

theorem remove_all_eq (env : Env) (fs : Fs) (id : String) :
    remove_all env fs id
      = remove_dir env
          (remove_file env (remove_file env fs id SETTINGS).2 id "data").2 id := by
  unfold remove_all
  simp only
  rcases remove_dir env
      (remove_file env (remove_file env fs id SETTINGS).2 id "data").2 id with ⟨b, fs3⟩
  cases b <;> rfl

/-- The return value of remove_all depends only on what is found at STORAGEDIR/id before
the call. -/
theorem remove_all_ret (env : Env) (fs : Fs) (id : String) :
    (remove_all env fs id).1 = absent_or_dir fs (env.STORAGEDIR ++ "/" ++ id) := by
  rw [remove_all_eq, remove_dir_ret]
  unfold absent_or_dir
  rw [remove_file_stat_other _ _ _ _ _ (file_path_ne_dir_path _ _),
    remove_file_stat_other _ _ _ _ _ (file_path_ne_dir_path _ _)]

theorem remove_all_stat_other (env : Env) (fs : Fs) (id q : String)
    (h1 : env.STORAGEDIR ++ "/" ++ id ++ "/" ++ SETTINGS ≠ q)
    (h2 : env.STORAGEDIR ++ "/" ++ id ++ "/" ++ "data" ≠ q)
    (h3 : env.STORAGEDIR ++ "/" ++ id ≠ q) :
    stat (remove_all env fs id).2 q = stat fs q := by
  rw [remove_all_eq, remove_dir_stat_other _ _ _ _ h3,
    remove_file_stat_other _ _ _ _ _ h2, remove_file_stat_other _ _ _ _ _ h1]

/-- A path below the provider directory of an identifier is never the path of its vpn
directory. -/
theorem provider_path_ne_vpn_path (root identifier tail : String) :
    root ++ "/" ++ ("provider" ++ "_" ++ identifier) ++ tail
      ≠ root ++ "/" ++ ("vpn" ++ "_" ++ identifier) := by
  intro h
  have hd := congrArg String.data h
  simp only [String.data_append, List.append_assoc] at hd
  have h2 := List.append_cancel_left hd
  have h3 := List.append_cancel_left h2
  have h4 := congrArg List.head? h3
  simp at h4

/-- C12: __connman_storage_remove_provider runs the removal for provider_id and then, in
the file system the first removal leaves and whatever its outcome, the removal for vpn_id;
what it returns is what the second removal returns.  That value is decided by what is
found at STORAGEDIR/vpn_id alone (absent or a directory), so the outcome of the first
removal has no influence on it. -/
theorem remove_provider_result (env : Env) (fs : Fs) (identifier : String) :
    __connman_storage_remove_provider env fs identifier
        = remove_all env (remove_all env fs ("provider" ++ "_" ++ identifier)).2
            ("vpn" ++ "_" ++ identifier)
      ∧ (__connman_storage_remove_provider env fs identifier).1
        = absent_or_dir fs (env.STORAGEDIR ++ "/" ++ ("vpn" ++ "_" ++ identifier)) := by
  have heq : __connman_storage_remove_provider env fs identifier
      = remove_all env (remove_all env fs ("provider" ++ "_" ++ identifier)).2
          ("vpn" ++ "_" ++ identifier) := by
    unfold __connman_storage_remove_provider
    rfl
  refine ⟨heq, ?_⟩
  rw [heq, remove_all_ret]
  unfold absent_or_dir
  rw [remove_all_stat_other env fs _ _
    (by
      have := provider_path_ne_vpn_path env.STORAGEDIR identifier ("/" ++ SETTINGS)
      rwa [← String.append_assoc] at this)
    (by
      have := provider_path_ne_vpn_path env.STORAGEDIR identifier ("/" ++ "data")
      rwa [← String.append_assoc] at this)
    (by
      have := provider_path_ne_vpn_path env.STORAGEDIR identifier ""
      rwa [String.append_empty] at this)]


/-- Evaluation for C12: the removal for provider_vpn1 returns false (the path is a regular
file), the removal for vpn_vpn1 is performed all the same and decides the result. -/
theorem remove_provider_result_witness :
    (remove_all env0 fs_providers "provider_vpn1").1 = false
      ∧ (__connman_storage_remove_provider env0 fs_providers "vpn1").1 = true
      ∧ stat (__connman_storage_remove_provider env0 fs_providers "vpn1").2
          "/var/lib/connman/vpn_vpn1" = none :=
  ⟨by decide, (remove_provider_result env0 fs_providers "vpn1").2.trans (by decide), by decide⟩

/-! ## Root events for a deleted or renamed-out directory -/

theorem g_strcmp0_eq_zero (a b : String) : (g_strcmp0 a b == 0) = true ↔ a = b := by
  unfold g_strcmp0
  by_cases h : a = b
  · simp [h]
  · by_cases h2 : a < b <;> simp [h, h2]

/-- The lookup of storage.c:204 returns the first record whose name is the event name. -/
theorem g_list_find_custom_split (pre post : List storage_subdir) (pos key : storage_subdir)
    (hpos : pos.name = key.name) (hpre : ∀ r ∈ pre, r.name ≠ key.name) :
    g_list_find_custom (pre ++ pos :: post) key = some pos := by
  unfold g_list_find_custom storage_subdir_cmp
  induction pre with
  | nil =>
    have : (g_strcmp0 pos.name key.name == 0) = true := (g_strcmp0_eq_zero _ _).mpr hpos
    simp [this]
  | cons x rest ih =>
    have hx : (g_strcmp0 x.name key.name == 0) = false := by
      cases hc : (g_strcmp0 x.name key.name == 0)
      · rfl
      · exact absurd ((g_strcmp0_eq_zero _ _).mp hc) (hpre x (List.mem_cons_self _ _))
    simp only [List.cons_append, List.find?_cons, hx]
    exact ih (fun r hr => hpre r (List.mem_cons_of_mem _ hr))

theorem g_list_find_custom_none (l : List storage_subdir) (key : storage_subdir)
    (h : ∀ r ∈ l, r.name ≠ key.name) : g_list_find_custom l key = none := by
  unfold g_list_find_custom storage_subdir_cmp
  apply List.find?_eq_none.mpr
  intro r hr hc
  exact h r hr ((g_strcmp0_eq_zero _ _).mp hc)

/-- C16: in every state reached by a run from process start, a root event that is not
self-deleted, whose child is a directory named n and whose kind is deleted or renamed-out
removes the first record named exactly n together with its registration and leaves every
other record in place, with its name, flag and position; when no record is named n the
state is unchanged.  The initialized flag is unchanged in both cases. -/
theorem root_delete_event_frame (env : Env) (actions : List Action) (w : World)
    (hreach : run env any_action World.start actions = some w)
    (fs : Fs) (fuel : Nat) (event : inotify_event)
    (hself : mask_has event.mask IN_DELETE_SELF = false)
    (hdir : mask_has event.mask IN_ISDIR = true)
    (hkind : (mask_has event.mask IN_DELETE || mask_has event.mask IN_MOVED_FROM) = true) :
    (∀ (pre post : List storage_subdir) (pos : storage_subdir),
        w.storage.subdirs = pre ++ pos :: post → pos.name = event.name →
        (∀ r ∈ pre, r.name ≠ event.name) →
        storage_inotify_cb env fs fuel w event
          = some { storage := { initialized := w.storage.initialized, subdirs := pre ++ post },
                   inotify := w.inotify.erase (subdir_registration env pos),
                   next_addr := w.next_addr })
      ∧ ((∀ r ∈ w.storage.subdirs, r.name ≠ event.name) →
          storage_inotify_cb env fs fuel w event = some w) := by
  have hlinked := (run_linked env any_action actions w hreach).1
  have hcb : storage_inotify_cb env fs fuel w event
      = match g_list_find_custom w.storage.subdirs
            { addr := 0, name := event.name, has_settings := false } with
        | some pos => some (storage_subdir_unregister env w pos)
        | none => some w := by
    simp [storage_inotify_cb, hself, hdir, hkind]
  constructor
  · intro pre post pos hsplit hname hpre
    have hmem : pos ∈ w.storage.subdirs := by rw [hsplit]; simp
    have hnd := linked_subdirs_nodup hlinked
    rw [hsplit] at hnd
    have hnotin : pos ∉ pre := by
      intro hin
      have := (List.nodup_append.mp hnd).2.2
      exact this hin (List.mem_cons_self _ _)
    rw [hcb, hsplit, g_list_find_custom_split pre post pos _ hname hpre]
    simp only
    rw [storage_subdir_unregister_eq hlinked hmem, hsplit,
      List.erase_append_right _ hnotin, List.erase_cons_head]
  · intro hnone
    rw [hcb, g_list_find_custom_none _ _ hnone]


/-- Witness for C16: deleting the directory of the second record of two, and deleting a
directory that has no record. -/
theorem root_delete_event_frame_witness :
    run env0 any_action World.start [Action.get_services (some entries_mixed) fs_wifi]
        = some w_after_init
      ∧ w_after_init.storage.subdirs = [rec_provider] ++ rec_wifi :: []
      ∧ storage_inotify_cb env0 fs_root 0 w_after_init event_rmdir_wifi
        = some { storage :=
                   { initialized := w_after_init.storage.initialized,
                     subdirs := [rec_provider] ++ [] },
                 inotify := w_after_init.inotify.erase (subdir_registration env0 rec_wifi),
                 next_addr := w_after_init.next_addr }
      ∧ storage_inotify_cb env0 fs_root 0 w_after_init event_rmdir_a = some w_after_init :=
  ⟨by decide, by decide,
   (root_delete_event_frame env0 [Action.get_services (some entries_mixed) fs_wifi]
      w_after_init (by decide) fs_root 0 event_rmdir_wifi (by decide) (by decide)
      (by decide)).1 [rec_provider] [] rec_wifi (by decide) (by decide) (by decide),
   (root_delete_event_frame env0 [Action.get_services (some entries_mixed) fs_wifi]
      w_after_init (by decide) fs_root 0 event_rmdir_a (by decide) (by decide)
      (by decide)).2 (by decide)⟩

/-! ## Per-subdirectory events -/

theorem deref_split (w : World) (pre post : List storage_subdir) (r : storage_subdir)
    (hsplit : w.storage.subdirs = pre ++ r :: post)
    (hnd : (w.storage.subdirs.map (fun x => x.addr)).Nodup) :
    deref w r.addr = some r := by
  unfold deref
  rw [hsplit] at hnd ⊢
  have hpre : ∀ x ∈ pre, (x.addr == r.addr) = false := by
    intro x hx
    simp only [List.map_append, List.map_cons] at hnd
    have hdis := (List.nodup_append.mp hnd).2.2
    cases hc : (x.addr == r.addr)
    · rfl
    · exfalso
      have heq : x.addr = r.addr := by simpa using hc
      exact hdis (List.mem_map.mpr ⟨x, hx, rfl⟩) (heq ▸ List.mem_cons_self _ _)
  rw [List.find?_append]
  have : pre.find? (fun x => x.addr == r.addr) = none := by
    apply List.find?_eq_none.mpr
    intro x hx hc
    rw [hpre x hx] at hc
    cases hc
  simp [this]

/-- Writing has_settings through the pointer of a record changes that record alone. -/
theorem set_has_settings_split (w : World) (pre post : List storage_subdir)
    (r : storage_subdir) (v : Bool)
    (hsplit : w.storage.subdirs = pre ++ r :: post)
    (hnd : (w.storage.subdirs.map (fun x => x.addr)).Nodup) :
    set_has_settings w r.addr v
      = { w with storage :=
            { w.storage with subdirs := pre ++ { r with has_settings := v } :: post } } := by
  have hother : ∀ l : List storage_subdir, (∀ x ∈ l, x.addr ≠ r.addr) →
      l.map (fun x => if x.addr == r.addr then { x with has_settings := v } else x) = l := by
    intro l hl
    induction l with
    | nil => rfl
    | cons y rest ih =>
      have hy : (y.addr == r.addr) = false := by
        simpa using hl y (List.mem_cons_self _ _)
      simp only [List.map_cons, hy, Bool.false_eq_true, if_false]
      rw [ih (fun x hx => hl x (List.mem_cons_of_mem _ hx))]
  rw [hsplit] at hnd
  simp only [List.map_append, List.map_cons] at hnd
  have hnd2 := List.nodup_append.mp hnd
  have hpre : ∀ x ∈ pre, x.addr ≠ r.addr := by
    intro x hx heq
    exact hnd2.2.2 (List.mem_map.mpr ⟨x, hx, rfl⟩) (heq ▸ List.mem_cons_self _ _)
  have hpost : ∀ x ∈ post, x.addr ≠ r.addr := by
    intro x hx heq
    have := (List.nodup_cons.mp hnd2.2.1).1
    exact this (heq ▸ List.mem_map.mpr ⟨x, hx, rfl⟩)
  unfold set_has_settings
  rw [hsplit]
  simp only [List.map_append, List.map_cons, beq_self_eq_true, if_true]
  rw [hother pre hpre, hother post hpost]

/-- The array connman_storage_get_services returns on an initialized mirror. -/
theorem get_services_array (env : Env) (dir : Option (List dirent)) (fs : Fs) (w : World)
    (hinit : w.storage.initialized = true) :
    (connman_storage_get_services env dir fs w).1
      = some ((listed (is_service_dir_name env) w.storage.subdirs).map
          (fun r => some r.name) ++ [none]) := by
  simp only [connman_storage_get_services, hinit, Bool.not_true, Bool.false_eq_true,
    if_false]
  rw [names_array_eq]

/-- C17, as stated, fails in its last part: with two records named `a` that both have a
settings file, the settings-deleted event bound to one of them clears that record only, and
`a` is still in the service listing because of the other record. -/
theorem settings_deleted_name_still_listed :
    (run env0 any_action World.start
        [ Action.get_services (some entries_empty) fs_root,
          Action.root_event fs_a_settings 0 event_mkdir_a,
          Action.root_event fs_a_settings 0 event_moved_to_a,
          Action.subdir_event fs_a event_settings_deleted 2 ]).map
      (fun w => (w.storage.subdirs, (connman_storage_get_services env0 none fs_a w).1))
      = some ([ { addr := 2, name := "a", has_settings := false },
                { addr := 1, name := "a", has_settings := true } ],
              some [some "a", none]) := by
  decide

/-- C17, amended: for every state whose records are distinct allocations and every record
in it, a per-subdirectory event bound to that record that is not directory-typed, is of
kind deleted or renamed-out and names the file settings sets that record's has_settings to
false and changes nothing else: the record stays where it is, number, names and order of
the records, every other flag, the initialized flag and the registrations are unchanged.
The record no longer contributes to the service listing; its name is absent from the
listing provided no other record of the same name has has_settings = true. -/
theorem settings_deleted_frame (env : Env) (fs : Fs) (w : World) (event : inotify_event)
    (pre post : List storage_subdir) (r : storage_subdir)
    (hsplit : w.storage.subdirs = pre ++ r :: post)
    (hnd : (w.storage.subdirs.map (fun x => x.addr)).Nodup)
    (hdir : mask_has event.mask IN_ISDIR = false)
    (hkind : (mask_has event.mask IN_DELETE || mask_has event.mask IN_MOVED_FROM) = true)
    (hname : event.name = SETTINGS) :
    storage_inotify_subdir_cb env fs w event r.addr
        = { w with storage :=
              { w.storage with subdirs := pre ++ { r with has_settings := false } :: post } }
      ∧ (w.storage.initialized = true →
          (∀ x ∈ pre ++ post, x.name = r.name → x.has_settings = false) →
          ∀ (dir : Option (List dirent)) (fs2 : Fs) (result : List (Option String)),
            (connman_storage_get_services env dir fs2
                (storage_inotify_subdir_cb env fs w event r.addr)).1 = some result →
            some r.name ∉ result) := by
  have hcb : storage_inotify_subdir_cb env fs w event r.addr
      = { w with storage :=
            { w.storage with subdirs := pre ++ { r with has_settings := false } :: post } } := by
    have hcmp : (g_strcmp0 event.name SETTINGS == 0) = true :=
      (g_strcmp0_eq_zero _ _).mpr hname
    unfold storage_inotify_subdir_cb
    rw [deref_split w pre post r hsplit hnd]
    simp only [hdir, hkind, hcmp, Bool.false_eq_true, if_false, if_true]
    exact set_has_settings_split w pre post r false hsplit hnd
  refine ⟨hcb, ?_⟩
  intro hinit hothers dir fs2 result hres
  have harr := get_services_array env dir fs2
    (storage_inotify_subdir_cb env fs w event r.addr) (by rw [hcb]; exact hinit)
  rw [harr, hcb] at hres
  injection hres with hres
  subst hres
  intro hmem
  simp only [List.mem_append, List.mem_map, List.mem_singleton, Option.some.injEq] at hmem
  rcases hmem with ⟨x, hx, hxname⟩ | hnone
  · simp only [listed, List.mem_filter, List.mem_append, List.mem_cons,
      Bool.and_eq_true] at hx
    rcases hx with ⟨hxmem | hxmem | hxmem, _, hflag⟩
    · have := hothers x (List.mem_append.mpr (Or.inl hxmem)) hxname
      rw [this] at hflag; cases hflag
    · subst hxmem
      cases hflag
    · have := hothers x (List.mem_append.mpr (Or.inr hxmem)) hxname
      rw [this] at hflag; cases hflag
  · cases hnone

/-- Witness for the amended C17: the settings file of `wifi_abcdef` is deleted. -/
theorem settings_deleted_frame_witness :
    w_after_init.storage.subdirs = [rec_provider] ++ rec_wifi :: []
      ∧ storage_inotify_subdir_cb env0 fs_root w_after_init event_settings_deleted
          rec_wifi.addr
        = { w_after_init with storage :=
              { w_after_init.storage with
                subdirs := [rec_provider] ++ { rec_wifi with has_settings := false } :: [] } }
      ∧ (connman_storage_get_services env0 none fs_root
          (storage_inotify_subdir_cb env0 fs_root w_after_init event_settings_deleted
            rec_wifi.addr)).1 = some [none] :=
  ⟨by decide,
   (settings_deleted_frame env0 fs_root w_after_init event_settings_deleted [rec_provider] []
      rec_wifi (by decide) (by decide) (by decide) (by decide) (by decide)).1,
   by decide⟩

/-- C18: for every state whose records are distinct allocations, every record in it and
every file system, a per-subdirectory event bound to that record that is not
directory-typed, not of kind deleted or renamed-out, of kind created or renamed-in and that
names the file settings sets the record's has_settings to true when stat of
STORAGEDIR/name/settings succeeds with a regular file; when stat fails or finds something
else the state is unchanged.  In both cases no other record and no other field changes. -/
theorem settings_created_frame (env : Env) (fs : Fs) (w : World) (event : inotify_event)
    (pre post : List storage_subdir) (r : storage_subdir)
    (hsplit : w.storage.subdirs = pre ++ r :: post)
    (hnd : (w.storage.subdirs.map (fun x => x.addr)).Nodup)
    (hdir : mask_has event.mask IN_ISDIR = false)
    (hnodel : (mask_has event.mask IN_DELETE || mask_has event.mask IN_MOVED_FROM) = false)
    (hkind : (mask_has event.mask IN_CREATE || mask_has event.mask IN_MOVED_TO) = true)
    (hname : event.name = SETTINGS) :
    (∀ st, stat fs (env.STORAGEDIR ++ "/" ++ r.name ++ "/" ++ SETTINGS) = some st →
        S_ISREG st = true →
        storage_inotify_subdir_cb env fs w event r.addr
          = { w with storage :=
                { w.storage with subdirs := pre ++ { r with has_settings := true } :: post } })
      ∧ (∀ st, stat fs (env.STORAGEDIR ++ "/" ++ r.name ++ "/" ++ SETTINGS) = some st →
          S_ISREG st = false →
          storage_inotify_subdir_cb env fs w event r.addr = w)
      ∧ (stat fs (env.STORAGEDIR ++ "/" ++ r.name ++ "/" ++ SETTINGS) = none →
          storage_inotify_subdir_cb env fs w event r.addr = w) := by
  have hcmp : (g_strcmp0 event.name SETTINGS == 0) = true :=
    (g_strcmp0_eq_zero _ _).mpr hname
  have hcb : storage_inotify_subdir_cb env fs w event r.addr
      = match stat fs (env.STORAGEDIR ++ "/" ++ r.name ++ "/" ++ SETTINGS) with
        | some st => if S_ISREG st then set_has_settings w r.addr true else w
        | none => w := by
    have hcmp2 : (g_strcmp0 SETTINGS SETTINGS == 0) = true :=
      (g_strcmp0_eq_zero _ _).mpr rfl
    unfold storage_inotify_subdir_cb
    rw [deref_split w pre post r hsplit hnd]
    simp only [hdir, hnodel, hkind, hcmp, hcmp2, hname, Bool.false_eq_true, if_false, if_true]
  refine ⟨?_, ?_, ?_⟩
  · intro st hst hreg
    rw [hcb, hst]
    simp only [hreg, if_true]
    exact set_has_settings_split w pre post r true hsplit hnd
  · intro st hst hreg
    rw [hcb, hst]
    simp [hreg]
  · intro hst
    rw [hcb, hst]

/-- Witness for C18: the record of `provider_vpn1`, created without a settings file, sees
a settings file created; and a created event while the path is a directory. -/
theorem settings_created_frame_witness :
    w_after_init.storage.subdirs = [] ++ rec_provider :: [rec_wifi]
      ∧ storage_inotify_subdir_cb env0
          [("/var/lib/connman/provider_vpn1/settings", Inode.reg "")] w_after_init
          event_settings_created rec_provider.addr
        = { w_after_init with storage :=
              { w_after_init.storage with
                subdirs := [] ++ { rec_provider with has_settings := true } :: [rec_wifi] } }
      ∧ storage_inotify_subdir_cb env0
          [("/var/lib/connman/provider_vpn1/settings", Inode.dir)] w_after_init
          event_settings_created rec_provider.addr = w_after_init :=
  ⟨by decide,
   (settings_created_frame env0 [("/var/lib/connman/provider_vpn1/settings", Inode.reg "")]
      w_after_init event_settings_created [] [rec_wifi] rec_provider (by decide) (by decide)
      (by decide) (by decide) (by decide) (by decide)).1 (Inode.reg "") (by decide)
      (by decide),
   (settings_created_frame env0 [("/var/lib/connman/provider_vpn1/settings", Inode.dir)]
      w_after_init event_settings_created [] [rec_wifi] rec_provider (by decide) (by decide)
      (by decide) (by decide) (by decide) (by decide)).2.1 Inode.dir (by decide)
      (by decide)⟩

/-! ## Ignored events -/

/-- C19: ignored events leave the state as it is.  A root event that is not self-deleted
and whose child is not a directory changes nothing; a per-subdirectory event that is
directory-typed, or whose file name is not `settings`, changes nothing: same records, same
flags, same initialized flag. -/
theorem ignored_events_noop (env : Env) (fs : Fs) (fuel : Nat) (w : World)
    (event : inotify_event) (user_data : Nat) :
    (mask_has event.mask IN_DELETE_SELF = false → mask_has event.mask IN_ISDIR = false →
        storage_inotify_cb env fs fuel w event = some w)
      ∧ (mask_has event.mask IN_ISDIR = true →
          storage_inotify_subdir_cb env fs w event user_data = w)
      ∧ (event.name ≠ SETTINGS →
          storage_inotify_subdir_cb env fs w event user_data = w) := by
  refine ⟨?_, ?_, ?_⟩
  · intro hself hdir
    simp [storage_inotify_cb, hself, hdir]
  · intro hdir
    unfold storage_inotify_subdir_cb
    cases deref w user_data <;> simp [hdir]
  · intro hname
    have hcmp : (g_strcmp0 event.name SETTINGS == 0) = false := by
      cases hc : (g_strcmp0 event.name SETTINGS == 0)
      · rfl
      · exact absurd ((g_strcmp0_eq_zero _ _).mp hc) hname
    unfold storage_inotify_subdir_cb
    cases deref w user_data with
    | none => rfl
    | some subdir =>
      simp only [hcmp, Bool.false_eq_true, if_false]
      split
      · rfl
      · split
        · rfl
        · split <;> rfl

/-- Witness for C19: a file created in the root, a directory created in a subdirectory,
and a file other than settings deleted in a subdirectory. -/
theorem ignored_events_noop_witness :
    storage_inotify_cb env0 fs_root 0 w_after_init { mask := IN_CREATE, name := "x" }
        = some w_after_init
      ∧ storage_inotify_subdir_cb env0 fs_root w_after_init
          { mask := IN_CREATE ||| IN_ISDIR, name := "settings" } 1 = w_after_init
      ∧ storage_inotify_subdir_cb env0 fs_root w_after_init
          { mask := IN_DELETE, name := "data" } 1 = w_after_init :=
  ⟨(ignored_events_noop env0 fs_root 0 w_after_init { mask := IN_CREATE, name := "x" } 1).1
      (by decide) (by decide),
   (ignored_events_noop env0 fs_root 0 w_after_init
      { mask := IN_CREATE ||| IN_ISDIR, name := "settings" } 1).2.1 (by decide),
   (ignored_events_noop env0 fs_root 0 w_after_init
      { mask := IN_DELETE, name := "data" } 1).2.2 (by decide)⟩

/-! ## Records and registered watches -/

/-- C14: with the watch registry as explicit state, in every state reached from process
start by queries, root events, per-subdirectory events and teardown, the registrations of
the subdirectory callback are exactly the registrations of the records: every record has
its registration, every such registration belongs to a record of the mirror, and the two
collections agree up to order, without repetition. -/
theorem registry_matches_records (env : Env) (actions : List Action) (w : World)
    (hreach : run env any_action World.start actions = some w) :
    (∀ r ∈ w.storage.subdirs, subdir_registration env r ∈ w.inotify)
      ∧ (∀ g ∈ w.inotify, g.callback = .storage_inotify_subdir_cb →
          ∃ r ∈ w.storage.subdirs, g = subdir_registration env r)
      ∧ List.Perm (w.inotify.filter (fun g => g.callback == .storage_inotify_subdir_cb))
          (w.storage.subdirs.map (subdir_registration env))
      ∧ (w.storage.subdirs.map (subdir_registration env)).Nodup := by
  have h := (run_linked env any_action actions w hreach).1
  have howned : ∀ g ∈ w.inotify, g.callback = .storage_inotify_subdir_cb →
      ∃ r ∈ w.storage.subdirs, g = subdir_registration env r := by
    intro g hg hcb
    rcases h.owned g hg with hroot | hrec
    · rw [hroot] at hcb
      simp [root_registration] at hcb
    · exact hrec
  have hnd : (w.storage.subdirs.map (subdir_registration env)).Nodup := by
    apply List.Nodup.map_on _ (linked_subdirs_nodup h)
    intro x hx y hy hxy
    exact linked_addr_inj h hx hy (subdir_registration_addr hxy)
  refine ⟨h.watched, howned, ?_, hnd⟩
  apply (List.perm_ext_iff_of_nodup (h.reg_nodup.filter _) hnd).mpr
  intro g
  simp only [List.mem_filter, List.mem_map, beq_iff_eq]
  constructor
  · rintro ⟨hg, hcb⟩
    obtain ⟨r, hr, hgr⟩ := howned g hg hcb
    exact ⟨r, hr, hgr.symm⟩
  · rintro ⟨r, hr, rfl⟩
    exact ⟨h.watched r hr, rfl⟩

/-- Witness for C14: the state after the first query on a root with two directories. -/
theorem registry_matches_records_witness :
    run env0 any_action World.start [Action.get_services (some entries_mixed) fs_wifi]
        = some w_after_init
      ∧ List.Perm
          (w_after_init.inotify.filter (fun g => g.callback == .storage_inotify_subdir_cb))
          (w_after_init.storage.subdirs.map (subdir_registration env0)) :=
  ⟨by decide,
   (registry_matches_records env0 [Action.get_services (some entries_mixed) fs_wifi]
      w_after_init (by decide)).2.2.1⟩

/-! ## Termination of the teardown loop -/

theorem find_erase_unmatched (l : List Registration) (g : Registration)
    (p : Registration → Bool) (hp : p g = false) : (l.erase g).find? p = l.find? p := by
  induction l with
  | nil => rfl
  | cons x rest ih =>
    by_cases hx : x = g
    · subst hx
      simp [hp]
    · have hbe : (x == g) = false := by simpa using hx
      rw [List.erase_cons, hbe]
      simp only [Bool.false_eq_true, if_false, List.find?_cons]
      rw [ih]

theorem record_watched_erase (env : Env) (inotify : List Registration) (g : Registration)
    (x : storage_subdir)
    (hg : g.is (env.STORAGEDIR ++ "/" ++ x.name) .storage_inotify_subdir_cb (some x.addr)
      = false) :
    record_watched env (inotify.erase g) x = record_watched env inotify x := by
  unfold record_watched
  rw [find_erase_unmatched _ _ _ hg]

/-- One iteration of the teardown loop on a state in which each record is watched removes
the head record, exactly, and each remaining record is still watched. -/
theorem unregister_head_watched (env : Env) (w : World) (r : storage_subdir)
    (rest : List storage_subdir) (hs : w.storage.subdirs = r :: rest)
    (hw : each_record_watched env w = true) :
    (storage_subdir_unregister env w r).storage.subdirs = rest
      ∧ (storage_subdir_unregister env w r).storage.initialized = w.storage.initialized
      ∧ (storage_subdir_unregister env w r).next_addr = w.next_addr
      ∧ each_record_watched env (storage_subdir_unregister env w r) = true := by
  simp only [each_record_watched, Bool.and_eq_true, decide_eq_true_eq, List.all_eq_true] at hw
  obtain ⟨hnd, hall⟩ := hw
  rw [hs] at hnd hall
  have hr := hall r (List.mem_cons_self _ _)
  unfold record_watched at hr
  cases hf : w.inotify.find? (fun g =>
      g.is (env.STORAGEDIR ++ "/" ++ r.name) .storage_inotify_subdir_cb (some r.addr)) with
  | none => rw [hf] at hr; cases hr
  | some g =>
    rw [hf] at hr
    have hfree : g.free_func = some .storage_subdir_free := by simpa using hr
    have hg_is := List.find?_some hf
    simp only [Registration.is, Bool.and_eq_true, beq_iff_eq] at hg_is
    have hud : g.user_data = some r.addr := hg_is.2
    have hun : storage_subdir_unregister env w r
        = { w with
            inotify := w.inotify.erase g
            storage := { w.storage with subdirs := rest } } := by
      unfold storage_subdir_unregister connman_inotify_unregister
      simp only [hf, hfree, hud, storage_subdir_free, g_list_remove, hs]
      simp [List.eraseP_cons]
    rw [hun]
    refine ⟨rfl, rfl, rfl, ?_⟩
    simp only [List.map_cons, List.nodup_cons] at hnd
    simp only [each_record_watched, Bool.and_eq_true, decide_eq_true_eq, List.all_eq_true]
    refine ⟨hnd.2, ?_⟩
    intro x hx
    have hne : r.addr ≠ x.addr := by
      intro heq
      exact hnd.1 (heq ▸ List.mem_map.mpr ⟨x, hx, rfl⟩)
    have hg : g.is (env.STORAGEDIR ++ "/" ++ x.name) .storage_inotify_subdir_cb (some x.addr)
        = false := by
      simp [Registration.is, hud, hne]
    show record_watched env (w.inotify.erase g) x = true
    rw [record_watched_erase env _ _ _ hg]
    exact hall x (List.mem_cons_of_mem _ hx)

/-- Unregistering the root callback leaves the records alone and each record watched. -/
theorem unregister_root_watched (env : Env) (w : World)
    (hw : each_record_watched env w = true) :
    (connman_inotify_unregister w env.STORAGEDIR .storage_inotify_cb none).storage = w.storage
      ∧ each_record_watched env
          (connman_inotify_unregister w env.STORAGEDIR .storage_inotify_cb none) = true := by
  unfold connman_inotify_unregister
  cases hf : w.inotify.find? (fun g => g.is env.STORAGEDIR .storage_inotify_cb none) with
  | none => exact ⟨rfl, hw⟩
  | some g =>
    have hg_is := List.find?_some hf
    simp only [Registration.is, Bool.and_eq_true, beq_iff_eq] at hg_is
    have hud : g.user_data = none := hg_is.2
    have hcb : g.callback = .storage_inotify_cb := hg_is.1.2
    have hw1 : (match g.free_func, g.user_data with
        | some GDestroyNotify.storage_subdir_free, some p =>
          storage_subdir_free { w with inotify := w.inotify.erase g } p
        | _, _ => { w with inotify := w.inotify.erase g })
        = { w with inotify := w.inotify.erase g } := by
      rw [hud]
      cases g.free_func <;> rfl
    simp only [hw1]
    refine ⟨by trivial, ?_⟩
    simp only [each_record_watched, Bool.and_eq_true, decide_eq_true_eq, List.all_eq_true]
      at hw ⊢
    refine ⟨hw.1, ?_⟩
    intro x hx
    have hg : g.is (env.STORAGEDIR ++ "/" ++ x.name) .storage_inotify_subdir_cb (some x.addr)
        = false := by
      simp [Registration.is, hcb]
    rw [record_watched_erase env _ _ _ hg]
    exact hw.2 x hx

/-- The teardown loop on a state in which each record is watched ends after exactly as
many iterations as there are records. -/
theorem storage_dir_cleanup_loop_exact (env : Env) :
    ∀ (fuel : Nat) (w : World), each_record_watched env w = true →
      (w.storage.subdirs.length ≤ fuel →
          ∃ w1, storage_dir_cleanup_loop env fuel w = some w1 ∧ w1.storage.subdirs = [])
        ∧ (fuel < w.storage.subdirs.length → storage_dir_cleanup_loop env fuel w = none) := by
  intro fuel
  induction fuel with
  | zero =>
    intro w _
    constructor
    · intro hlen
      have hnil : w.storage.subdirs = [] := List.length_eq_zero.mp (Nat.le_zero.mp hlen)
      exact ⟨w, by simp [storage_dir_cleanup_loop, hnil], hnil⟩
    · intro hlen
      cases hs : w.storage.subdirs with
      | nil => rw [hs] at hlen; cases hlen
      | cons r rest => simp [storage_dir_cleanup_loop, hs]
  | succ fuel ih =>
    intro w hw
    cases hs : w.storage.subdirs with
    | nil =>
      constructor
      · intro _
        exact ⟨w, by simp [storage_dir_cleanup_loop, hs], hs⟩
      · intro hlen
        simp at hlen
    | cons r rest =>
      obtain ⟨hrest, _, _, hw2⟩ := unregister_head_watched env w r rest hs hw
      have ih2 := ih (storage_subdir_unregister env w r) hw2
      rw [hrest] at ih2
      constructor
      · intro hlen
        simp only [List.length_cons] at hlen
        obtain ⟨w1, hrun, hnil⟩ := ih2.1 (by omega)
        exact ⟨w1, by simp only [storage_dir_cleanup_loop, hs]; exact hrun, hnil⟩
      · intro hlen
        simp only [List.length_cons] at hlen
        simp only [storage_dir_cleanup_loop, hs]
        exact ih2.2 (by omega)

/-- C20: teardown terminates.  In every initialized state in which each record has a
registered per-subdirectory watch, one iteration of the loop (unregister the watch of the
head record) removes exactly the head record, through the cleanup function of its
registration, and leaves each remaining record watched; the loop therefore ends after
exactly as many iterations as there were records, not earlier, and storage_dir_cleanup
returns, leaving no record and initialized = false. -/
theorem teardown_terminates (env : Env) (w : World)
    (hinit : w.storage.initialized = true) (hw : each_record_watched env w = true) :
    (∀ (r : storage_subdir) (rest : List storage_subdir), w.storage.subdirs = r :: rest →
        (storage_subdir_unregister env w r).storage.subdirs = rest
          ∧ each_record_watched env (storage_subdir_unregister env w r) = true)
      ∧ (∀ fuel, fuel < w.storage.subdirs.length → storage_dir_cleanup env fuel w = none)
      ∧ (∀ fuel, w.storage.subdirs.length ≤ fuel →
          ∃ w1, storage_dir_cleanup env fuel w = some w1
            ∧ w1.storage = { initialized := false, subdirs := [] }) := by
  have hroot := unregister_root_watched env w hw
  have hlen : (connman_inotify_unregister w env.STORAGEDIR
      .storage_inotify_cb none).storage.subdirs.length = w.storage.subdirs.length := by
    rw [hroot.1]
  refine ⟨?_, ?_, ?_⟩
  · intro r rest hs
    obtain ⟨h1, _, _, h4⟩ := unregister_head_watched env w r rest hs hw
    exact ⟨h1, h4⟩
  · intro fuel hfuel
    have := (storage_dir_cleanup_loop_exact env fuel _ hroot.2).2 (by rw [hlen]; exact hfuel)
    simp [storage_dir_cleanup, hinit, this]
  · intro fuel hfuel
    obtain ⟨w1, hrun, _⟩ :=
      (storage_dir_cleanup_loop_exact env fuel _ hroot.2).1 (by rw [hlen]; exact hfuel)
    exact ⟨{ w1 with storage := { initialized := false, subdirs := [] } },
      by simp [storage_dir_cleanup, hinit, hrun], rfl⟩

/-- Witness for C20: the initialized mirror with three records of the scenario; one
iteration is not enough, three are. -/
theorem teardown_terminates_witness :
    w_scenario.storage.subdirs.length = 3
      ∧ storage_dir_cleanup env0 1 w_scenario = none
      ∧ (storage_dir_cleanup env0 3 w_scenario).map (fun w => w.storage)
        = some { initialized := false, subdirs := [] } :=
  ⟨by decide,
   (teardown_terminates env0 w_scenario (by decide) (by decide)).2.1 1 (by decide),
   by
     obtain ⟨w1, h1, h2⟩ :=
       (teardown_terminates env0 w_scenario (by decide) (by decide)).2.2 3 (by decide)
     rw [h1]
     exact congrArg some h2⟩

end Storage
